import Mathlib

/-!
Verification of the APEX bundle build logic (`apex/apex.go` of the
android-soong repository).  The Go source is shallowly embedded below:
pure helper functions become Lean functions, the stateful dependency
walks become folds over explicit event lists, and the build-action
emission becomes a pure function producing a transcript of rules,
install actions and collected files.  Paths are represented as strings
(for built artifacts) and as lists of path components (for in-package
install directories, mirroring `filepath.Join`/`filepath.Split` on
slash-separated relative paths).
-/

namespace ApexSoong

/-! ## String ordering (Go `<` on strings, byte-lexicographic) -/

/-- Lexicographic comparison of char lists by code point, mirroring Go's
built-in string `<`/`<=` used by `sort.Strings` and `sort.Slice`. -/
def charsLe : List Char → List Char → Bool
  | [], _ => true
  | _ :: _, [] => false
  | a :: as, b :: bs =>
    if a.toNat < b.toNat then true
    else if b.toNat < a.toNat then false
    else charsLe as bs

/-- Non-strict string order used for sorting. -/
def strLe (a b : String) : Bool := charsLe a.data b.data

/-- Last slash-separated component of a path (Go `Path.Base` on the
slash-free names produced by the build, accumulator-style recursion). -/
def baseNameAux : List Char → List Char → List Char
  | [], acc => acc.reverse
  | c :: cs, acc => if c = '/' then baseNameAux cs [] else baseNameAux cs (c :: acc)

/-- Base name of a built-file path: the part after the final `/`. -/
def baseName (s : String) : String := ⟨baseNameAux s.data []⟩

/-! ## Multilib buckets and the dependency-request transcript of `DepsMutator` -/

/-- `apexNativeDependencies`: parallel name lists of one multilib bucket. -/
structure ApexNativeDependencies where
  native_shared_libs : List String
  binaries : List String
deriving DecidableEq, Repr

/-- `apexMultilibProperties`: the five multilib buckets. -/
structure ApexMultilibProperties where
  first : ApexNativeDependencies
  both : ApexNativeDependencies
  prefer32 : ApexNativeDependencies
  lib32 : ApexNativeDependencies
  lib64 : ApexNativeDependencies
deriving DecidableEq, Repr

/-- One architecture target of the package, as seen by `DepsMutator`:
its arch-variation string (`target.String()`) and its
`Arch.ArchType.Multilib` value (`"lib32"`, `"lib64"`, or other). -/
structure Target where
  archString : String
  multilib : String
  abi : List String
deriving DecidableEq, Repr

/-- Dependency tags of `apex.go` (compared by identity in Go). -/
inductive DepTag where
  | sharedLib
  | executable
  | javaLib
  | prebuilt
  | key
  | certificate
deriving DecidableEq, Repr

/-- Which property list a dependency request was issued from.  The Go
code issues each request from a syntactically distinct
`AddFarVariationDependencies` call site; the bucket records that call
site. -/
inductive Bucket where
  | defShared
  | defBin
  | defPrebuilt
  | bothB
  | firstB
  | lib32B
  | lib64B
  | prefer32B
deriving DecidableEq, Repr

/-- One dependency-request event: the names passed to
`AddFarVariationDependencies`, the tag, and the arch variation. -/
structure DepRequest where
  bucket : Bucket
  tag : DepTag
  arch : String
  names : List String
deriving DecidableEq, Repr

/-- `addDependenciesForNativeModules`: one call produces a shared-lib
request and an executable request for the same arch. -/
def addDependenciesForNativeModules (b : Bucket) (deps : ApexNativeDependencies)
    (arch : String) : List DepRequest :=
  [⟨b, .sharedLib, arch, deps.native_shared_libs⟩,
   ⟨b, .executable, arch, deps.binaries⟩]

/-- `has32BitTarget` loop of `DepsMutator`. -/
def has32BitTarget (targets : List Target) : Bool :=
  targets.any (fun t => t.multilib == "lib32")

/-- Per-role and bucket-independent properties that `DepsMutator` reads. -/
structure ApexBundleProperties where
  manifest : Option String
  file_contexts : Option String
  native_shared_libs : List String
  binaries : List String
  java_libs : List String
  prebuilts : List String
  key : Option String
  payload_type : Option String
  certificate : Option String
  installable : Option Bool
  ignore_system_library_special_case : Option Bool
  multilib : ApexMultilibProperties
deriving DecidableEq, Repr

/-- Requests issued by one iteration of the target loop in
`DepsMutator` (index `i`, target `t`, full target list `targets`). -/
def targetRequests (p : ApexBundleProperties) (targets : List Target)
    (i : Nat) (t : Target) : List DepRequest :=
  [⟨.defShared, .sharedLib, t.archString, p.native_shared_libs⟩]
  ++ addDependenciesForNativeModules .bothB p.multilib.both t.archString
  ++ (if i = 0 then
        [⟨.defBin, .executable, t.archString, p.binaries⟩]
        ++ addDependenciesForNativeModules .firstB p.multilib.first t.archString
        ++ [⟨.defPrebuilt, .prebuilt, t.archString, p.prebuilts⟩]
      else [])
  ++ (if t.multilib = "lib32" then
        addDependenciesForNativeModules .lib32B p.multilib.lib32 t.archString
        ++ addDependenciesForNativeModules .prefer32B p.multilib.prefer32 t.archString
      else if t.multilib = "lib64" then
        addDependenciesForNativeModules .lib64B p.multilib.lib64 t.archString
        ++ (if has32BitTarget targets then []
            else addDependenciesForNativeModules .prefer32B p.multilib.prefer32 t.archString)
      else [])

/-- The indexed loop `for i, target := range targets` of `DepsMutator`. -/
def depsMutatorLoop (p : ApexBundleProperties) (targets : List Target) :
    Nat → List Target → List DepRequest
  | _, [] => []
  | i, t :: ts => targetRequests p targets i t ++ depsMutatorLoop p targets (i + 1) ts

/-- Transcript of all native-module dependency requests issued by
`DepsMutator` for the given properties and target list. -/
def depsMutatorRequests (p : ApexBundleProperties) (targets : List Target) :
    List DepRequest :=
  depsMutatorLoop p targets 0 targets

/-- The `prefer32` bucket of `p` is requested for target `t`: both the
shared-lib and the binaries request from the `Prefer32` property list
appear in the transcript at `t`'s arch variation. -/
def prefer32Requested (p : ApexBundleProperties) (targets : List Target)
    (t : Target) : Prop :=
  (⟨.prefer32B, .sharedLib, t.archString, p.multilib.prefer32.native_shared_libs⟩ : DepRequest)
      ∈ depsMutatorRequests p targets
  ∧ (⟨.prefer32B, .executable, t.archString, p.multilib.prefer32.binaries⟩ : DepRequest)
      ∈ depsMutatorRequests p targets

instance (p : ApexBundleProperties) (targets : List Target) (t : Target) :
    Decidable (prefer32Requested p targets t) := by
  unfold prefer32Requested; infer_instance

/-! ## Payload types, file classes and packaged files -/

/-- Suffix constant `imageApexSuffix`. -/
def imageApexSuffix : String := ".apex"

/-- Suffix constant `zipApexSuffix`. -/
def zipApexSuffix : String := ".zipapex"

/-- Name constant `imageApexType`. -/
def imageApexType : String := "image"

/-- Name constant `zipApexType`. -/
def zipApexType : String := "zip"

/-- `apexPackaging` payload selector. -/
inductive ApexPackaging where
  | imageApex
  | zipApex
  | both
deriving DecidableEq, Repr

/-- `apexPackaging.image()`. -/
def ApexPackaging.image : ApexPackaging → Bool
  | .imageApex => true
  | .both => true
  | .zipApex => false

/-- `apexPackaging.zip()`. -/
def ApexPackaging.zip : ApexPackaging → Bool
  | .zipApex => true
  | .both => true
  | .imageApex => false

/-- `apexPackaging.suffix()`; `none` models the Go `panic` on `both`. -/
def ApexPackaging.suffix : ApexPackaging → Option String
  | .imageApex => some imageApexSuffix
  | .zipApex => some zipApexSuffix
  | .both => none

/-- `apexPackaging.name()`; `none` models the Go `panic` on `both`. -/
def ApexPackaging.name : ApexPackaging → Option String
  | .imageApex => some imageApexType
  | .zipApex => some zipApexType
  | .both => none

/-- `apexFileClass`. -/
inductive ApexFileClass where
  | etc
  | nativeSharedLib
  | nativeExecutable
  | shBinary
  | javaSharedLib
deriving DecidableEq, Repr

/-- `apexFile`: one packaged file.  `installDir` is kept as a list of
path components (the Go code joins them with `/`); the weak
back-reference to the owning module is omitted (used only by the
legacy-build-system emitter, outside the modelled pipeline). -/
structure ApexFile where
  builtFile : String
  moduleName : String
  installDir : List String
  fileClass : ApexFileClass
  symlinks : List String
deriving DecidableEq, Repr

/-! ## Dependency children seen by the `GenerateAndroidBuildActions` walk -/

/-- Facts the walk reads off a `cc.Module` dependency. -/
structure CcModuleInfo where
  name : String
  outputFile : String
  multilib : String
  relativeInstallPath : List String
  archNative : Bool
  archTypeName : String
  symlinks : List String
  isStubs : Bool
  hasStubsVariants : Bool
  canHaveApexVariants : Bool
  installableToApex : Bool
deriving DecidableEq, Repr

/-- Facts the walk reads off an `apexKey` dependency. -/
structure ApexKeyInfo where
  name : String
  privateKeyFile : String
  publicKeyFile : String
  installable : Bool
deriving DecidableEq, Repr

/-- A dependency module as the walk callback can observe it. -/
inductive Child where
  | cc (m : CcModuleInfo)
  | sh (name outFile : String) (subDir : List String)
  | javaLibrary (name : String) (dexJarFile : Option String)
  | prebuiltEtc (name outFile : String) (subDir : List String)
  | apexKey (k : ApexKeyInfo)
  | appCert (name pemFile keyFile : String)
  | otherKind (name : String)
deriving DecidableEq, Repr

/-- Name of a child module (`ctx.OtherModuleName`). -/
def Child.moduleName : Child → String
  | .cc m => m.name
  | .sh n _ _ => n
  | .javaLibrary n _ => n
  | .prebuiltEtc n _ _ => n
  | .apexKey k => k.name
  | .appCert n _ _ => n
  | .otherKind n => n

/-- One visit of the `ctx.WalkDeps` callback: either a direct edge from
the bundle (with its dependency tag) or a transitive edge. -/
inductive WalkEvent where
  | direct (tag : DepTag) (child : Child)
  | indirect (child : Child)
deriving DecidableEq, Repr

/-- Errors reported during build-action generation, one constructor per
`PropertyErrorf`/`ModuleErrorf` call site. -/
inductive GenError where
  | notCcLibrary (dep : String)
  | notBinaryModule (dep : String)
  | javaNotDexed (dep : String)
  | notJavaLibrary (dep : String)
  | notPrebuiltEtc (dep : String)
  | notApexKey (dep : String)
  | notCertificateModule (dep : String)
  | payloadTypeInvalid (v : String)
  | keyNotFound (keyName : String)
  | fileContextsNotFound (path : String)
deriving DecidableEq, Repr

/-! ## Copy-manifest helpers -/

/-- `getCopyManifestForNativeLibrary`. -/
def getCopyManifestForNativeLibrary (m : CcModuleInfo) (handleSpecialLibs : Bool) :
    String × List String :=
  let dirInApex := if m.multilib = "lib32" then ["lib"]
                   else if m.multilib = "lib64" then ["lib64"] else []
  let dirInApex := dirInApex ++ m.relativeInstallPath
  let dirInApex := if m.archNative then dirInApex else dirInApex ++ [m.archTypeName]
  let dirInApex :=
    if handleSpecialLibs ∧ (m.name = "libc" ∨ m.name = "libm" ∨ m.name = "libdl")
    then dirInApex ++ ["bionic"] else dirInApex
  (m.outputFile, dirInApex)

/-- `getCopyManifestForExecutable`. -/
def getCopyManifestForExecutable (m : CcModuleInfo) : String × List String :=
  (m.outputFile, ["bin"])

/-- `getCopyManifestForShBinary`. -/
def getCopyManifestForShBinary (outFile : String) (subDir : List String) :
    String × List String :=
  (outFile, ["bin"] ++ subDir)

/-- `getCopyManifestForJavaLibrary`; the file is the dex jar, which may
be absent (`nil` in Go). -/
def getCopyManifestForJavaLibrary (dexJarFile : Option String) :
    Option String × List String :=
  (dexJarFile, ["javalib"])

/-- `getCopyManifestForPrebuiltEtc`. -/
def getCopyManifestForPrebuiltEtc (outFile : String) (subDir : List String) :
    String × List String :=
  (outFile, ["etc"] ++ subDir)

/-! ## The dependency walk of `GenerateAndroidBuildActions` -/

/-- Mutable state threaded through the walk callback. -/
structure WalkState where
  filesInfo : List ApexFile
  keyFile : Option String
  pubKeyFile : Option String
  certificate : Option (String × String)
  errors : List GenError
deriving DecidableEq, Repr

/-- State before the walk starts. -/
def startWalkState : WalkState := ⟨[], none, none, none, []⟩

/-- One step of the walk callback (lines 621-707 of `apex.go`). -/
def walkStep (debuggable handleSpecialLibs : Bool) (st : WalkState) :
    WalkEvent → WalkState
  | .direct tag child =>
    match tag, child with
    | .sharedLib, .cc m =>
        let fd := getCopyManifestForNativeLibrary m handleSpecialLibs
        { st with filesInfo :=
            st.filesInfo ++ [⟨fd.1, m.name, fd.2, .nativeSharedLib, []⟩] }
    | .sharedLib, c =>
        { st with errors := st.errors ++ [.notCcLibrary c.moduleName] }
    | .executable, .cc m =>
        if m.archNative = false then st
        else
          let fd := getCopyManifestForExecutable m
          { st with filesInfo :=
              st.filesInfo ++ [⟨fd.1, m.name, fd.2, .nativeExecutable, m.symlinks⟩] }
    | .executable, .sh n outFile subDir =>
        let fd := getCopyManifestForShBinary outFile subDir
        { st with filesInfo := st.filesInfo ++ [⟨fd.1, n, fd.2, .shBinary, []⟩] }
    | .executable, c =>
        { st with errors := st.errors ++ [.notBinaryModule c.moduleName] }
    | .javaLib, .javaLibrary n dex =>
        (match getCopyManifestForJavaLibrary dex with
         | (none, _) => { st with errors := st.errors ++ [.javaNotDexed n] }
         | (some f, d) =>
            { st with filesInfo := st.filesInfo ++ [⟨f, n, d, .javaSharedLib, []⟩] })
    | .javaLib, c =>
        { st with errors := st.errors ++ [.notJavaLibrary c.moduleName] }
    | .prebuilt, .prebuiltEtc n outFile subDir =>
        let fd := getCopyManifestForPrebuiltEtc outFile subDir
        { st with filesInfo := st.filesInfo ++ [⟨fd.1, n, fd.2, .etc, []⟩] }
    | .prebuilt, c =>
        { st with errors := st.errors ++ [.notPrebuiltEtc c.moduleName] }
    | .key, .apexKey k =>
        { st with keyFile := some k.privateKeyFile,
                  pubKeyFile :=
                    if k.installable = false ∧ debuggable = true
                    then some k.publicKeyFile else st.pubKeyFile }
    | .key, c =>
        { st with errors := st.errors ++ [.notApexKey c.moduleName] }
    | .certificate, .appCert _ pem keyF =>
        { st with certificate := some (pem, keyF) }
    | .certificate, c =>
        { st with errors := st.errors ++ [.notCertificateModule c.moduleName] }
  | .indirect child =>
    match child with
    | .cc m =>
        if m.canHaveApexVariants ∧ m.installableToApex then
          if m.isStubs ∨ m.hasStubsVariants then st
          else
            let fd := getCopyManifestForNativeLibrary m handleSpecialLibs
            { st with filesInfo :=
                st.filesInfo ++ [⟨fd.1, m.name, fd.2, .nativeSharedLib, []⟩] }
        else st
    | _ => st

/-! ## Post-walk normalization: dedup, sort, namespace -/

/-- The `removeDup` closure with its `encountered` set made explicit. -/
def removeDupAux (encountered : List String) : List ApexFile → List ApexFile
  | [] => []
  | f :: fs =>
    if f.builtFile ∈ encountered then removeDupAux encountered fs
    else f :: removeDupAux (f.builtFile :: encountered) fs

/-- `removeDup`: keep the first entry for each `builtFile`. -/
def removeDup (filesInfo : List ApexFile) : List ApexFile := removeDupAux [] filesInfo

/-- Order on packaged files used by the `sort.Slice` call: compare the
built-file paths as strings. -/
def fileLe (a b : ApexFile) : Prop := strLe a.builtFile b.builtFile = true

instance decFileLe : DecidableRel fileLe := fun _ _ =>
  inferInstanceAs (Decidable (_ = true))

/-- The `sort.Slice` call ordering `filesInfo` by built-file path. -/
def sortFilesInfo (filesInfo : List ApexFile) : List ApexFile :=
  List.insertionSort fileLe filesInfo

/-- Prefixing loop: qualify every module name with the bundle name. -/
def namespaceNames (bundleName : String) (filesInfo : List ApexFile) : List ApexFile :=
  filesInfo.map (fun f => { f with moduleName := bundleName ++ "." ++ f.moduleName })

/-! ## Canned fs-config generation (`buildUnflattenedApex`, image branch) -/

/-- In-package path of a packaged file (`filepath.Join(f.installDir, f.builtFile.Base())`). -/
def pathInApex (f : ApexFile) : List String := f.installDir ++ [baseName f.builtFile]

/-- Fuelled form of the ancestor-directory loop; each iteration strips
the last path component, so `dir.length` fuel always suffices. -/
def addAncestorDirsFuel : Nat → List String → List (List String) → List (List String)
  | 0, _, execPaths => execPaths
  | fuel + 1, dir, execPaths =>
    if dir = [] ∨ dir ∈ execPaths then execPaths
    else addAncestorDirsFuel fuel dir.dropLast (execPaths ++ [dir])

/-- The ancestor-directory loop: climb from `dir` towards the package
root, appending every directory not already listed. -/
def addAncestorDirs (dir : List String) (execPaths : List (List String)) :
    List (List String) :=
  addAncestorDirsFuel dir.length dir execPaths

/-- One file's contribution to the read-only/executable partition. -/
def fsConfigStep (acc : List (List String) × List (List String)) (f : ApexFile) :
    List (List String) × List (List String) :=
  let p := pathInApex f
  let acc2 :=
    if f.installDir = ["bin"] then
      (acc.1, acc.2 ++ [p] ++ f.symlinks.map (fun s => ["bin", s]))
    else (acc.1 ++ [p], acc.2)
  (acc2.1, addAncestorDirs f.installDir acc2.2)

/-- Raw (walk-ordered) read-only and executable path lists. -/
def fsConfigPathsRaw (filesInfo : List ApexFile) :
    List (List String) × List (List String) :=
  filesInfo.foldl fsConfigStep ([], [])

/-- Order on in-package paths used by the two `sort.Strings` calls:
compare the slash-joined renderings. -/
def pathLe (a b : List String) : Prop :=
  strLe (String.intercalate "/" a) (String.intercalate "/" b) = true

instance decPathLe : DecidableRel pathLe := fun _ _ =>
  inferInstanceAs (Decidable (_ = true))

/-- Sorted path lists as passed to the `generateFsConfig` rule. -/
def cannedFsConfigPaths (filesInfo : List ApexFile) :
    List (List String) × List (List String) :=
  let rawPaths := fsConfigPathsRaw filesInfo
  (List.insertionSort pathLe rawPaths.1, List.insertionSort pathLe rawPaths.2)

/-! ## Build rules, installs, and the packaging pipeline -/

/-- Extra flags passed to the image builder (`opt_flags`), kept
structured instead of stringly joined. -/
inductive OptFlag where
  | pubkey (path : String)
  | overrideApkPackageName (pkgName : String)
deriving DecidableEq, Repr

/-- A `ctx.Build` invocation, carrying the decision-relevant arguments. -/
inductive BuildRule where
  | generateFsConfig (roPaths execPaths : List (List String))
  | apexRule (keyFile : String) (optFlags : List OptFlag)
  | apexProtoConvertRule
  | apexBundleRule (abis : List String)
  | zipApexRule
  | signapk (outFile certPem certKey : String)
  | cpManifest (src outFile : String)
deriving DecidableEq, Repr

/-- A `ctx.InstallFile` invocation. -/
structure InstallAction where
  dir : List String
  fileName : String
  src : String
deriving DecidableEq, Repr

/-- Per-package configuration and environment read during generation. -/
structure ApexConfig where
  moduleName : String
  properties : ApexBundleProperties
  targets : List Target
  walkEvents : List WalkEvent
  debuggable : Bool
  flattenApex : Bool
  unbundledBuild : Bool
  fileContextsExists : Bool
  overrideManifestPackageName : Option String
  defaultAppCertificateDir : String
  defaultCertificatePem : String
  defaultCertificateKey : String
deriving DecidableEq, Repr

/-- `apexBundle.installable()`. -/
def ApexConfig.installable (cfg : ApexConfig) : Bool :=
  (cfg.properties.installable).getD true

/-- Module-output path constructor (`android.PathForModuleOut`). -/
def pathForModuleOut (cfg : ApexConfig) (fileName : String) : String :=
  "out/soong/.intermediates/" ++ cfg.moduleName ++ "/" ++ fileName

/-- Module-source path constructor (`android.PathForModuleSrc`). -/
def pathForModuleSrc (cfg : ApexConfig) (fileName : String) : String :=
  "src/" ++ cfg.moduleName ++ "/" ++ fileName

/-- `android.SrcIsModule`: a `":module"` reference names a module. -/
def srcIsModule (s : String) : String :=
  match s.data with
  | ':' :: rest => ⟨rest⟩
  | _ => ""

/-- Certificate resolution at the head of `buildUnflattenedApex`. -/
def resolveCertificate (cfg : ApexConfig)
    (walkedCertificate : Option (String × String)) : String × String :=
  let cert := (cfg.properties.certificate).getD ""
  if cert ≠ "" ∧ srcIsModule cert = "" then
    (cfg.defaultAppCertificateDir ++ "/" ++ cert ++ ".x509.pem",
     cfg.defaultAppCertificateDir ++ "/" ++ cert ++ ".pk8")
  else if cert = "" then (cfg.defaultCertificatePem, cfg.defaultCertificateKey)
  else walkedCertificate.getD ("", "")

/-- `android.FirstUniqueStrings`. -/
def firstUniqueStringsAux (seen : List String) : List String → List String
  | [] => []
  | s :: rest =>
    if s ∈ seen then firstUniqueStringsAux seen rest
    else s :: firstUniqueStringsAux (s :: seen) rest

/-- Deduplicated first-seen-order abi list. -/
def firstUniqueStrings (l : List String) : List String := firstUniqueStringsAux [] l

/-- Security-policy file path probed for existence. -/
def fileContextsPath (cfg : ApexConfig) : String :=
  "system/sepolicy/apex/" ++ ((cfg.properties.file_contexts).getD cfg.moduleName)
    ++ "-file_contexts"

/-- Result of one `buildUnflattenedApex` invocation. -/
structure UnflattenedOut where
  rules : List BuildRule
  installs : List InstallAction
  output : Option (ApexPackaging × String)
  errors : List GenError
  panicked : Bool
deriving DecidableEq, Repr

/-- Result of an invocation that was skipped. -/
def emptyUnflattenedOut : UnflattenedOut := ⟨[], [], none, [], false⟩

/-- The `opt_flags` passed to the image builder: the optional embedded
public key and the optional manifest-package-name override. -/
def imageOptFlags (pubKeyFile : Option String) (overrideName : Option String) :
    List OptFlag :=
  (match pubKeyFile with
   | some pk => [OptFlag.pubkey pk]
   | none => []) ++
  (match overrideName with
   | some nm => [OptFlag.overrideApkPackageName nm]
   | none => [])

/-- `buildUnflattenedApex`: emit the build rules for one payload type.
`panicked` records that `suffix()`/`name()` hit their `panic` branch. -/
def buildUnflattenedApex (cfg : ApexConfig) (filesInfo : List ApexFile)
    (keyFile : String) (pubKeyFile : Option String)
    (walkedCertificate : Option (String × String)) (apexType : ApexPackaging) :
    UnflattenedOut :=
  match apexType.suffix, apexType.name with
  | some suffix, some _typeName =>
    let certificate := resolveCertificate cfg walkedCertificate
    let abis := firstUniqueStrings (cfg.targets.filterMap (fun t => t.abi.head?))
    let outPath := pathForModuleOut cfg (cfg.moduleName ++ suffix)
    let installIt : List InstallAction :=
      if cfg.installable = true ∧ cfg.flattenApex = false then
        [⟨["apex"], cfg.moduleName ++ suffix, outPath⟩]
      else []
    if apexType.image then
      let fsPaths := cannedFsConfigPaths filesInfo
      let fsRule := BuildRule.generateFsConfig fsPaths.1 fsPaths.2
      if cfg.fileContextsExists = false then
        { rules := [fsRule], installs := [], output := none,
          errors := [.fileContextsNotFound (fileContextsPath cfg)], panicked := false }
      else
        let optFlags := imageOptFlags pubKeyFile cfg.overrideManifestPackageName
        { rules := [fsRule, .apexRule keyFile optFlags, .apexProtoConvertRule,
                    .apexBundleRule abis, .signapk outPath certificate.1 certificate.2],
          installs := installIt, output := some (apexType, outPath),
          errors := [], panicked := false }
    else
      { rules := [.zipApexRule, .signapk outPath certificate.1 certificate.2],
        installs := installIt, output := some (apexType, outPath),
        errors := [], panicked := false }
  | _, _ => { rules := [], installs := [], output := none, errors := [], panicked := true }

/-- Result of `buildFlattenedApex`. -/
structure FlattenedOut where
  filesInfo : List ApexFile
  rules : List BuildRule
  installs : List InstallAction
deriving DecidableEq, Repr

/-- `buildFlattenedApex`: copy the manifest alongside the files and, in
flattened mode, install every file into the per-package subtree. -/
def buildFlattenedApex (cfg : ApexConfig) (filesInfo : List ApexFile) : FlattenedOut :=
  if cfg.installable then
    let manifest := pathForModuleSrc cfg ((cfg.properties.manifest).getD "apex_manifest.json")
    let copiedManifest := pathForModuleOut cfg "apex_manifest.json"
    let fi := filesInfo ++
      [⟨copiedManifest, cfg.moduleName ++ ".apex_manifest.json", ["."], .etc, []⟩]
    { filesInfo := fi,
      rules := [.cpManifest manifest copiedManifest],
      installs :=
        if cfg.flattenApex then
          fi.map (fun f =>
            ⟨["apex", cfg.moduleName] ++ f.installDir, baseName f.builtFile, f.builtFile⟩)
        else [] }
  else { filesInfo := filesInfo, rules := [], installs := [] }

/-- `Payload_type` parsing at the head of `GenerateAndroidBuildActions`;
`none` models the `PropertyErrorf` + early return. -/
def parsePayloadType : Option String → Option ApexPackaging
  | none => some .imageApex
  | some s =>
    if s = "image" then some .imageApex
    else if s = "zip" then some .zipApex
    else if s = "both" then some .both
    else none

/-- The walk of `GenerateAndroidBuildActions` over all visited edges. -/
def walkCollect (cfg : ApexConfig) : WalkState :=
  cfg.walkEvents.foldl
    (walkStep cfg.debuggable
      (!(cfg.properties.ignore_system_library_special_case).getD false))
    startWalkState

/-- The deduplicated, sorted, name-qualified file list assigned to
`a.filesInfo` before packaging. -/
def normalizedFilesInfo (cfg : ApexConfig) : List ApexFile :=
  namespaceNames cfg.moduleName (sortFilesInfo (removeDup (walkCollect cfg).filesInfo))

/-- Everything `GenerateAndroidBuildActions` produces or mutates. -/
structure GenOut where
  apexTypes : Option ApexPackaging
  fatal : Option GenError
  errors : List GenError
  filesInfo : List ApexFile
  rules : List BuildRule
  installs : List InstallAction
  invoked : List ApexPackaging
  outputFiles : List (ApexPackaging × String)
  panicked : Bool
  flattened : Bool
deriving DecidableEq, Repr

/-- Output of a generation aborted before any build action. -/
def emptyGenOut : GenOut := ⟨none, none, [], [], [], [], [], [], false, false⟩

/-- The zip-payload pipeline call inside `GenerateAndroidBuildActions`
(`if a.apexTypes.zip() { a.buildUnflattenedApex(..., zipApex) }`). -/
def genZipOut (cfg : ApexConfig) (apexTypes : ApexPackaging) (keyFile : String) :
    UnflattenedOut :=
  if apexTypes.zip then
    buildUnflattenedApex cfg (normalizedFilesInfo cfg) keyFile
      (walkCollect cfg).pubKeyFile (walkCollect cfg).certificate .zipApex
  else emptyUnflattenedOut

/-- The image-payload pipeline call inside `GenerateAndroidBuildActions`
(`if a.apexTypes.image() { a.buildUnflattenedApex(..., imageApex) }`). -/
def genImageOut (cfg : ApexConfig) (apexTypes : ApexPackaging) (keyFile : String) :
    UnflattenedOut :=
  if apexTypes.image then
    buildUnflattenedApex cfg (normalizedFilesInfo cfg) keyFile
      (walkCollect cfg).pubKeyFile (walkCollect cfg).certificate .imageApex
  else emptyUnflattenedOut

/-- The flattened pipeline call inside `GenerateAndroidBuildActions`
(`if a.apexTypes.image() { a.buildFlattenedApex(ctx) }`). -/
def genFlatOut (cfg : ApexConfig) (apexTypes : ApexPackaging) : FlattenedOut :=
  if apexTypes.image then buildFlattenedApex cfg (normalizedFilesInfo cfg)
  else { filesInfo := normalizedFilesInfo cfg, rules := [], installs := [] }

/-- The tail of `GenerateAndroidBuildActions` once the payload type has
parsed and the key dependency has resolved: normalization and the
per-payload pipelines. -/
def generateWithKey (cfg : ApexConfig) (apexTypes : ApexPackaging) (keyFile : String) :
    GenOut :=
  let zOut := genZipOut cfg apexTypes keyFile
  let iOut := genImageOut cfg apexTypes keyFile
  let fOut := genFlatOut cfg apexTypes
  { apexTypes := some apexTypes,
    fatal := none,
    errors := (walkCollect cfg).errors ++ zOut.errors ++ iOut.errors,
    filesInfo := fOut.filesInfo,
    rules := zOut.rules ++ iOut.rules ++ fOut.rules,
    installs := zOut.installs ++ iOut.installs ++ fOut.installs,
    invoked := (if apexTypes.zip then [ApexPackaging.zipApex] else [])
               ++ (if apexTypes.image then [ApexPackaging.imageApex] else []),
    outputFiles := zOut.output.toList ++ iOut.output.toList,
    panicked := zOut.panicked || iOut.panicked,
    flattened := cfg.flattenApex && !cfg.unbundledBuild }

/-- `GenerateAndroidBuildActions` in full: payload parsing, the walk,
the fatal key check, and the packaging tail. -/
def generateAndroidBuildActions (cfg : ApexConfig) : GenOut :=
  match parsePayloadType cfg.properties.payload_type with
  | none =>
    { emptyGenOut with
        fatal := some (.payloadTypeInvalid ((cfg.properties.payload_type).getD "")) }
  | some apexTypes =>
    match (walkCollect cfg).keyFile with
    | none =>
      { emptyGenOut with
          apexTypes := some apexTypes,
          flattened := cfg.flattenApex && !cfg.unbundledBuild,
          errors := (walkCollect cfg).errors,
          fatal := some (.keyNotFound ((cfg.properties.key).getD "")) }
    | some keyFile => generateWithKey cfg apexTypes keyFile

/-! ## The variant-propagation walk (`apexDepsMutator`) -/

/-- A module in the dependency graph below an apex bundle, with the one
capability flag `apexDepsMutator` consults and its outgoing edges. -/
inductive DepModule where
  | node (name : String) (canHaveApexVariants : Bool) (deps : List DepModule)

/-- Name of a dependency-graph module. -/
def DepModule.nm : DepModule → String
  | .node n _ _ => n

/-- Capability flag of a dependency-graph module. -/
def DepModule.canHave : DepModule → Bool
  | .node _ c _ => c

/-- Outgoing edges of a dependency-graph module. -/
def DepModule.children : DepModule → List DepModule
  | .node _ _ ds => ds

/-- The `mctx.WalkDeps` traversal of `apexDepsMutator`: every visited
child yields an entry `(name, parent is the bundle)`, and the walk
descends into a child exactly when the callback returned `true`, i.e.
when the child is an `ApexModule` that can have apex variants. -/
def walkDepsEntries (isDirect : Bool) : List DepModule → List (String × Bool)
  | [] => []
  | .node n can ds :: rest =>
      (n, isDirect) ::
        ((if can then walkDepsEntries false ds else []) ++ walkDepsEntries isDirect rest)

/-- Pair-deduplication used by the shared install-dependency table. -/
def dedupPairsAux (seen : List (String × String)) :
    List (String × String) → List (String × String)
  | [] => []
  | p :: ps =>
    if p ∈ seen then dedupPairsAux seen ps
    else p :: dedupPairsAux (p :: seen) ps

/-- Deduplicated pair list, first-seen order. -/
def dedupPairs (l : List (String × String)) : List (String × String) :=
  dedupPairsAux [] l

/-- Modelled from the spec: `android.UpdateApexDependency` lives outside
`src/`; per §4.2 of the spec it records an install-dependency relation
(package name → child name) in a shared, deduplicated table keyed by
the (package, dependency) pair, for children directly reachable from
the package node. -/
def updateApexDependencyTable (apexName : String)
    (entries : List (String × Bool)) : List (String × String) :=
  dedupPairs ((entries.filter (fun e => e.2)).map (fun e => (apexName, e.1)))

/-- The apex bundle as `apexDepsMutator` sees it. -/
structure ApexDepsBundle where
  name : String
  installable : Bool
  testApex : Bool
  deps : List DepModule

/-- `apexDepsMutator`: the install-dependency relations recorded in the
shared table for one bundle.  In Go the `installable && !testApex`
guard sits inside the callback; it is loop-invariant, so it is
equivalent to guard the whole table. -/
def apexDepsMutator (b : ApexDepsBundle) : List (String × String) :=
  if b.installable = true ∧ b.testApex = false then
    updateApexDependencyTable b.name (walkDepsEntries true b.deps)
  else []

/-! ## Order lemmas for the string comparison -/

lemma charsLe_total : ∀ a b : List Char, charsLe a b = true ∨ charsLe b a = true
  | [], _ => by left; simp [charsLe]
  | _ :: _, [] => by right; simp [charsLe]
  | a :: as, b :: bs => by
    simp only [charsLe]
    rcases Nat.lt_trichotomy a.toNat b.toNat with h | h | h
    · left; simp [h]
    · have h1 : ¬ a.toNat < b.toNat := by omega
      have h2 : ¬ b.toNat < a.toNat := by omega
      simpa [h1, h2] using charsLe_total as bs
    · right; simp [h]

lemma charsLe_trans : ∀ a b c : List Char,
    charsLe a b = true → charsLe b c = true → charsLe a c = true
  | [], _, _, _, _ => by simp [charsLe]
  | x :: xs, [], _, hab, _ => by simp [charsLe] at hab
  | x :: xs, y :: ys, [], _, hbc => by simp [charsLe] at hbc
  | x :: xs, y :: ys, z :: zs, hab, hbc => by
    simp only [charsLe] at hab hbc ⊢
    rcases Nat.lt_trichotomy x.toNat y.toNat with hxy | hxy | hxy
    · rcases Nat.lt_trichotomy y.toNat z.toNat with hyz | hyz | hyz
      · rw [if_pos (show x.toNat < z.toNat by omega)]
      · rw [if_pos (show x.toNat < z.toNat by omega)]
      · rw [if_neg (by omega), if_pos hyz] at hbc
        simp at hbc
    · rcases Nat.lt_trichotomy y.toNat z.toNat with hyz | hyz | hyz
      · rw [if_pos (show x.toNat < z.toNat by omega)]
      · rw [if_neg (by omega : ¬ x.toNat < y.toNat), if_neg (by omega : ¬ y.toNat < x.toNat)] at hab
        rw [if_neg (by omega : ¬ y.toNat < z.toNat), if_neg (by omega : ¬ z.toNat < y.toNat)] at hbc
        rw [if_neg (by omega : ¬ x.toNat < z.toNat), if_neg (by omega : ¬ z.toNat < x.toNat)]
        exact charsLe_trans xs ys zs hab hbc
      · rw [if_neg (by omega), if_pos hyz] at hbc
        simp at hbc
    · rw [if_neg (by omega), if_pos hxy] at hab
      simp at hab

lemma strLe_total (a b : String) : strLe a b = true ∨ strLe b a = true :=
  charsLe_total a.data b.data

lemma strLe_trans {a b c : String} (h1 : strLe a b = true) (h2 : strLe b c = true) :
    strLe a c = true :=
  charsLe_trans a.data b.data c.data h1 h2

instance : IsTotal ApexFile fileLe := ⟨fun a b => strLe_total a.builtFile b.builtFile⟩

instance : IsTrans ApexFile fileLe := ⟨fun _ _ _ => strLe_trans⟩

/-! ## Concrete example data used by witnesses and counterexamples -/

/-- Empty multilib bucket. -/
def emptyNativeDeps : ApexNativeDependencies := ⟨[], []⟩

/-- Multilib properties with a populated `prefer32` bucket. -/
def exMultilib : ApexMultilibProperties :=
  ⟨emptyNativeDeps, emptyNativeDeps, ⟨["libp32"], ["binp32"]⟩, emptyNativeDeps, emptyNativeDeps⟩

/-- Baseline bundle properties for the examples. -/
def exProps : ApexBundleProperties :=
  { manifest := none, file_contexts := none, native_shared_libs := [], binaries := [],
    java_libs := [], prebuilts := ["pb"], key := some "mykey", payload_type := none,
    certificate := none, installable := none,
    ignore_system_library_special_case := none, multilib := exMultilib }

/-- A 64-bit target. -/
def exT64 : Target := ⟨"arm64_armv8-a", "lib64", ["arm64-v8a"]⟩

/-- A 32-bit target. -/
def exT32 : Target := ⟨"arm_armv7-a-neon", "lib32", ["armeabi-v7a"]⟩

/-- A key module that is not installed on the device. -/
def exKey : ApexKeyInfo := ⟨"mykey", "keys/priv.pem", "keys/pub.avbpubkey", false⟩

/-- Baseline valid configuration: one prebuilt file and a resolved key. -/
def exCfg : ApexConfig :=
  { moduleName := "m", properties := exProps, targets := [exT64],
    walkEvents := [.direct .prebuilt (.prebuiltEtc "pb" "zzz" []),
                   .direct .key (.apexKey exKey)],
    debuggable := false, flattenApex := false, unbundledBuild := false,
    fileContextsExists := true, overrideManifestPackageName := none,
    defaultAppCertificateDir := "certs", defaultCertificatePem := "certs/d.x509.pem",
    defaultCertificateKey := "certs/d.pk8" }

/-- Configuration with no key dependency at all. -/
def exCfgNoKey : ApexConfig :=
  { exCfg with walkEvents := [.direct .prebuilt (.prebuiltEtc "pb" "zzz" [])] }

/-- Configuration with a script binary installed under `bin/sub`. -/
def exCfgBinSub : ApexConfig :=
  { exCfg with walkEvents := [.direct .executable (.sh "tool" "outdir/tool" ["sub"]),
                              .direct .key (.apexKey exKey)] }

/-- Configuration with one undexed java library among valid files. -/
def exCfgJava : ApexConfig :=
  { exCfg with walkEvents := [.direct .javaLib (.javaLibrary "badjava" none),
                              .direct .prebuilt (.prebuiltEtc "pb" "zzz" []),
                              .direct .key (.apexKey exKey)] }

/-- Debug-build configuration whose key is not installable. -/
def exCfgDebug : ApexConfig :=
  { exCfg with debuggable := true,
               walkEvents := [.direct .key (.apexKey exKey)] }

/-- A binary packaged file with a symlink. -/
def exBinFile : ApexFile := ⟨"o/mybin", "mybin", ["bin"], .nativeExecutable, ["ln1"]⟩

/-- The copied-manifest entry appended by `buildFlattenedApex`. -/
def flattenedManifestEntry (cfg : ApexConfig) : ApexFile :=
  ⟨pathForModuleOut cfg "apex_manifest.json",
   cfg.moduleName ++ ".apex_manifest.json", ["."], .etc, []⟩

/-- Executable-partition entries contributed directly by one file (its
in-package path when installed directly in `bin`, plus its symlinks),
as opposed to entries added by the ancestor-directory loop. -/
def binEntriesOf (f : ApexFile) : List (List String) :=
  if f.installDir = ["bin"] then pathInApex f :: f.symlinks.map (fun s => ["bin", s])
  else []

/-- All direct (non-directory) executable-partition entries of a file list. -/
def binEntryPaths (filesInfo : List ApexFile) : List (List String) :=
  filesInfo.flatMap binEntriesOf

/-- A path list is prefix-closed when it contains every nonempty proper
prefix of each of its members; the executable path list maintains this
invariant throughout fs-config generation. -/
def prefixClosed (ex : List (List String)) : Prop :=
  ∀ p ∈ ex, ∀ k, 1 ≤ k → k < p.length → p.take k ∈ ex

/-- Whether a walk event is a direct key edge resolved to an actual
key module (the only events that touch `keyFile`/`pubKeyFile`). -/
def isApexKeyEvent : WalkEvent → Bool
  | .direct .key (.apexKey _) => true
  | _ => false

/-- Derived view of `walkStep`: the error list one walk event appends,
independent of the incoming state. -/
def walkStepErrors : WalkEvent → List GenError
  | .direct tag child =>
    match tag, child with
    | .sharedLib, .cc _ => []
    | .sharedLib, c => [.notCcLibrary c.moduleName]
    | .executable, .cc _ => []
    | .executable, .sh _ _ _ => []
    | .executable, c => [.notBinaryModule c.moduleName]
    | .javaLib, .javaLibrary n none => [.javaNotDexed n]
    | .javaLib, .javaLibrary _ (some _) => []
    | .javaLib, c => [.notJavaLibrary c.moduleName]
    | .prebuilt, .prebuiltEtc _ _ _ => []
    | .prebuilt, c => [.notPrebuiltEtc c.moduleName]
    | .key, .apexKey _ => []
    | .key, c => [.notApexKey c.moduleName]
    | .certificate, .appCert _ _ _ => []
    | .certificate, c => [.notCertificateModule c.moduleName]
  | .indirect _ => []

/-! # Theorems -/

/-! ## C1: the prefer32 multilib fallback policy -/

lemma prefer32_mem_targetRequests (p : ApexBundleProperties) (targets : List Target)
    (i : Nat) (t : Target) (tag : DepTag) (s : String) (L : List String) :
    ((⟨.prefer32B, tag, s, L⟩ : DepRequest) ∈ targetRequests p targets i t) ↔
      (s = t.archString ∧
        ((tag = .sharedLib ∧ L = p.multilib.prefer32.native_shared_libs) ∨
         (tag = .executable ∧ L = p.multilib.prefer32.binaries)) ∧
        (t.multilib = "lib32" ∨ (t.multilib = "lib64" ∧ has32BitTarget targets = false))) := by
  unfold targetRequests addDependenciesForNativeModules
  split_ifs with h0 h32 h64 hhas <;> simp_all [DepRequest.mk.injEq] <;> tauto

lemma prefer32_mem_depsMutatorLoop (p : ApexBundleProperties) (allT : List Target)
    (tag : DepTag) (s : String) (L : List String) :
    ∀ (ts : List Target) (i : Nat),
      ((⟨.prefer32B, tag, s, L⟩ : DepRequest) ∈ depsMutatorLoop p allT i ts) ↔
        ∃ t, t ∈ ts ∧ s = t.archString ∧
          ((tag = .sharedLib ∧ L = p.multilib.prefer32.native_shared_libs) ∨
           (tag = .executable ∧ L = p.multilib.prefer32.binaries)) ∧
          (t.multilib = "lib32" ∨ (t.multilib = "lib64" ∧ has32BitTarget allT = false))
  | [], i => by simp [depsMutatorLoop]
  | t :: ts, i => by
    rw [depsMutatorLoop, List.mem_append, prefer32_mem_targetRequests,
      prefer32_mem_depsMutatorLoop p allT tag s L ts (i + 1)]
    constructor
    · rintro (h | ⟨t', ht', h⟩)
      · exact ⟨t, List.mem_cons_self t ts, h⟩
      · exact ⟨t', List.mem_cons_of_mem t ht', h⟩
    · rintro ⟨t', ht', h⟩
      rcases List.mem_cons.mp ht' with rfl | ht'
      · exact Or.inl h
      · exact Or.inr ⟨t', ht', h⟩

/-- C1: for a package whose target list has no 32-bit target, the
`DepsMutator` multilib resolution requests the `prefer32`-bucket
shared-lib and binary dependencies for every 64-bit target; for a
package with at least one 32-bit target, it requests them for every
32-bit target and for no 64-bit target. -/
theorem c1_prefer32_policy (p : ApexBundleProperties) (targets : List Target)
    (hnodup : (targets.map Target.archString).Nodup) :
    (has32BitTarget targets = false →
       ∀ t ∈ targets, t.multilib = "lib64" → prefer32Requested p targets t) ∧
    (has32BitTarget targets = true →
       (∀ t ∈ targets, t.multilib = "lib32" → prefer32Requested p targets t) ∧
       (∀ t ∈ targets, t.multilib = "lib64" → ¬ prefer32Requested p targets t)) := by
  constructor
  · intro h32 t ht hml
    refine ⟨?_, ?_⟩
    · exact (prefer32_mem_depsMutatorLoop p targets .sharedLib t.archString
        p.multilib.prefer32.native_shared_libs targets 0).mpr
        ⟨t, ht, rfl, Or.inl ⟨rfl, rfl⟩, Or.inr ⟨hml, h32⟩⟩
    · exact (prefer32_mem_depsMutatorLoop p targets .executable t.archString
        p.multilib.prefer32.binaries targets 0).mpr
        ⟨t, ht, rfl, Or.inr ⟨rfl, rfl⟩, Or.inr ⟨hml, h32⟩⟩
  · intro h32
    constructor
    · intro t ht hml
      refine ⟨?_, ?_⟩
      · exact (prefer32_mem_depsMutatorLoop p targets .sharedLib t.archString
          p.multilib.prefer32.native_shared_libs targets 0).mpr
          ⟨t, ht, rfl, Or.inl ⟨rfl, rfl⟩, Or.inl hml⟩
      · exact (prefer32_mem_depsMutatorLoop p targets .executable t.archString
          p.multilib.prefer32.binaries targets 0).mpr
          ⟨t, ht, rfl, Or.inr ⟨rfl, rfl⟩, Or.inl hml⟩
    · intro t ht hml hreq
      obtain ⟨t', ht', hs, _, hcase⟩ :=
        (prefer32_mem_depsMutatorLoop p targets .sharedLib t.archString
          p.multilib.prefer32.native_shared_libs targets 0).mp hreq.1
      rcases hcase with h32' | ⟨_, hfalse⟩
      · have heq : t = t' := List.inj_on_of_nodup_map hnodup ht ht' hs
        rw [heq, h32'] at hml
        simp at hml
      · rw [h32] at hfalse
        simp at hfalse

/-- Witness for C1 at a concrete 64-bit-only target list. -/
theorem c1_prefer32_policy_witness :
    (([exT64].map Target.archString).Nodup) ∧ prefer32Requested exProps [exT64] exT64 := by
  refine ⟨by decide, ?_⟩
  exact (c1_prefer32_policy exProps [exT64] (by decide)).1 (by decide) exT64
    (List.mem_singleton.mpr rfl) rfl

/-! ## C2: a missing key is fatal and suppresses all build actions -/

/-- C2: when no key dependency resolved to an actual key module, build
action generation records a fatal error and returns before emitting any
build rule, install action, output artifact or file list. -/
theorem c2_missing_key_fatal (cfg : ApexConfig)
    (hkey : (walkCollect cfg).keyFile = none) :
    ((generateAndroidBuildActions cfg).fatal).isSome = true ∧
    (generateAndroidBuildActions cfg).rules = [] ∧
    (generateAndroidBuildActions cfg).installs = [] ∧
    (generateAndroidBuildActions cfg).outputFiles = [] ∧
    (generateAndroidBuildActions cfg).filesInfo = [] := by
  unfold generateAndroidBuildActions
  cases hp : parsePayloadType cfg.properties.payload_type with
  | none => simp [emptyGenOut]
  | some tp => simp [hkey, emptyGenOut]

/-- Witness for C2: a configuration with no key edge at all. -/
theorem c2_missing_key_fatal_witness :
    (walkCollect exCfgNoKey).keyFile = none ∧
    (generateAndroidBuildActions exCfgNoKey).rules = [] := by
  refine ⟨by decide, ?_⟩
  exact (c2_missing_key_fatal exCfgNoKey (by decide)).2.1

/-! ## C3: deduplication and sorting of the packaged-file list -/

lemma mem_removeDupAux_not_encountered :
    ∀ (enc : List String) (l : List ApexFile) (g : ApexFile),
      g ∈ removeDupAux enc l → g.builtFile ∉ enc
  | _, [], g => by simp [removeDupAux]
  | enc, f :: fs, g => by
    simp only [removeDupAux]
    split_ifs with h
    · exact mem_removeDupAux_not_encountered enc fs g
    · intro hg
      rcases List.mem_cons.mp hg with rfl | hg'
      · exact h
      · have hrec := mem_removeDupAux_not_encountered _ fs g hg'
        intro hc
        exact hrec (List.mem_cons_of_mem _ hc)

lemma removeDupAux_builtFile_nodup :
    ∀ (enc : List String) (l : List ApexFile),
      ((removeDupAux enc l).map ApexFile.builtFile).Nodup
  | _, [] => by simp [removeDupAux]
  | enc, f :: fs => by
    simp only [removeDupAux]
    split_ifs with h
    · exact removeDupAux_builtFile_nodup enc fs
    · simp only [List.map_cons, List.nodup_cons]
      refine ⟨?_, removeDupAux_builtFile_nodup _ fs⟩
      intro hmem
      obtain ⟨g, hg, he⟩ := List.mem_map.mp hmem
      have hnot := mem_removeDupAux_not_encountered _ fs g hg
      rw [he] at hnot
      exact hnot (List.mem_cons_self _ _)

lemma removeDupAux_first_kept :
    ∀ (enc : List String) (l : List ApexFile) (g : ApexFile),
      g ∈ removeDupAux enc l →
      l.find? (fun x => x.builtFile == g.builtFile) = some g
  | _, [], g => by simp [removeDupAux]
  | enc, f :: fs, g => by
    simp only [removeDupAux]
    split_ifs with h
    · intro hg
      have hnotin := mem_removeDupAux_not_encountered enc fs g hg
      have hne : ¬ (f.builtFile == g.builtFile) = true := by
        simp only [beq_iff_eq]
        intro he
        rw [he] at h
        exact hnotin h
      rw [@List.find?_cons_of_neg _ (fun x => x.builtFile == g.builtFile) f fs hne]
      exact removeDupAux_first_kept enc fs g hg
    · intro hg
      rcases List.mem_cons.mp hg with rfl | hg'
      · rw [@List.find?_cons_of_pos _ (fun x => x.builtFile == g.builtFile) g fs (by simp)]
      · have hnotin := mem_removeDupAux_not_encountered _ fs g hg'
        have hne : ¬ (f.builtFile == g.builtFile) = true := by
          simp only [beq_iff_eq]
          intro he
          rw [he] at hnotin
          exact hnotin (List.mem_cons_self _ _)
        rw [@List.find?_cons_of_neg _ (fun x => x.builtFile == g.builtFile) f fs hne]
        exact removeDupAux_first_kept _ fs g hg'

lemma removeDupAux_builtFile_mem :
    ∀ (enc : List String) (l : List ApexFile) (b : String), b ∉ enc →
      (b ∈ (removeDupAux enc l).map ApexFile.builtFile ↔
        b ∈ l.map ApexFile.builtFile)
  | _, [], _, _ => by simp [removeDupAux]
  | enc, f :: fs, b, hb => by
    simp only [removeDupAux]
    split_ifs with h
    · rw [removeDupAux_builtFile_mem enc fs b hb]
      simp only [List.map_cons, List.mem_cons]
      constructor
      · exact Or.inr
      · rintro (he | hm)
        · rw [he] at hb
          exact absurd h hb
        · exact hm
    · simp only [List.map_cons, List.mem_cons]
      by_cases he : b = f.builtFile
      · simp [he]
      · have hb' : b ∉ f.builtFile :: enc := by
          intro hc
          rcases List.mem_cons.mp hc with hc | hc
          · exact he hc
          · exact hb hc
        rw [removeDupAux_builtFile_mem _ fs b hb']

lemma namespaceNames_builtFile (bundleName : String) (l : List ApexFile) :
    (namespaceNames bundleName l).map ApexFile.builtFile = l.map ApexFile.builtFile := by
  unfold namespaceNames
  rw [List.map_map]
  rfl

lemma sortFilesInfo_perm (l : List ApexFile) : (sortFilesInfo l).Perm l :=
  List.perm_insertionSort fileLe l

lemma normalizedFilesInfo_nodup (cfg : ApexConfig) :
    ((normalizedFilesInfo cfg).map ApexFile.builtFile).Nodup := by
  unfold normalizedFilesInfo
  rw [namespaceNames_builtFile]
  have hperm := (sortFilesInfo_perm (removeDup (walkCollect cfg).filesInfo)).map
    ApexFile.builtFile
  exact hperm.nodup_iff.mpr (removeDupAux_builtFile_nodup [] _)

lemma normalizedFilesInfo_sorted (cfg : ApexConfig) :
    List.Pairwise fileLe (normalizedFilesInfo cfg) := by
  unfold normalizedFilesInfo namespaceNames
  rw [List.pairwise_map]
  exact (List.sorted_insertionSort fileLe _).imp (fun hab => hab)

lemma builtFile_mem_normalized (cfg : ApexConfig) (f : ApexFile)
    (hf : f ∈ (walkCollect cfg).filesInfo) :
    f.builtFile ∈ (normalizedFilesInfo cfg).map ApexFile.builtFile := by
  unfold normalizedFilesInfo
  rw [namespaceNames_builtFile]
  have h1 : f.builtFile ∈ ((walkCollect cfg).filesInfo).map ApexFile.builtFile :=
    List.mem_map_of_mem _ hf
  have h2 : f.builtFile ∈ (removeDup (walkCollect cfg).filesInfo).map ApexFile.builtFile := by
    unfold removeDup
    rw [removeDupAux_builtFile_mem [] _ _ (by simp)]
    exact h1
  exact ((sortFilesInfo_perm _).map ApexFile.builtFile).mem_iff.mpr h2

lemma generate_eq_generateWithKey (cfg : ApexConfig) (tp : ApexPackaging) (kf : String)
    (hparse : parsePayloadType cfg.properties.payload_type = some tp)
    (hkey : (walkCollect cfg).keyFile = some kf) :
    generateAndroidBuildActions cfg = generateWithKey cfg tp kf := by
  unfold generateAndroidBuildActions
  rw [hparse, hkey]

lemma generate_filesInfo_eq (cfg : ApexConfig) (tp : ApexPackaging) (kf : String)
    (hparse : parsePayloadType cfg.properties.payload_type = some tp)
    (hkey : (walkCollect cfg).keyFile = some kf) :
    (generateAndroidBuildActions cfg).filesInfo =
      normalizedFilesInfo cfg ++
        (if tp.image = true ∧ cfg.installable = true then [flattenedManifestEntry cfg]
         else []) := by
  rw [generate_eq_generateWithKey cfg tp kf hparse hkey]
  unfold generateWithKey flattenedManifestEntry
  by_cases hi : tp.image = true
  · by_cases hin : cfg.installable = true
    · simp [genFlatOut, buildFlattenedApex, hi, hin]
    · simp [genFlatOut, buildFlattenedApex, hi, hin]
  · simp [genFlatOut, hi]

/-- C3 counterexample: for the baseline valid configuration the *final*
`filesInfo` list fails the claimed dedup-and-sorted invariant (the
copied-manifest entry is appended after sorting). -/
theorem c3_counterexample :
    ¬ ((((generateAndroidBuildActions exCfg).filesInfo).map ApexFile.builtFile).Nodup ∧
       List.Pairwise fileLe (generateAndroidBuildActions exCfg).filesInfo) := by
  decide

/-- C3 (amended): the list produced by the post-walk normalization is
duplicate-free by built-file path with the first-encountered entry
kept, and is sorted by that path; the final list is the normalized list
with, for an installable image bundle, the copied-manifest entry
appended at the end, exempt from dedup and sort. -/
theorem c3_dedup_sort_normalized (cfg : ApexConfig) (tp : ApexPackaging) (kf : String)
    (hparse : parsePayloadType cfg.properties.payload_type = some tp)
    (hkey : (walkCollect cfg).keyFile = some kf) :
    ((normalizedFilesInfo cfg).map ApexFile.builtFile).Nodup ∧
    List.Pairwise fileLe (normalizedFilesInfo cfg) ∧
    (∀ g ∈ removeDup (walkCollect cfg).filesInfo,
        ((walkCollect cfg).filesInfo).find? (fun x => x.builtFile == g.builtFile) = some g) ∧
    ((generateAndroidBuildActions cfg).filesInfo =
      normalizedFilesInfo cfg ++
        (if tp.image = true ∧ cfg.installable = true then [flattenedManifestEntry cfg]
         else [])) :=
  ⟨normalizedFilesInfo_nodup cfg, normalizedFilesInfo_sorted cfg,
   fun g hg => removeDupAux_first_kept [] _ g hg,
   generate_filesInfo_eq cfg tp kf hparse hkey⟩

/-- Witness for the amended C3 at the baseline configuration. -/
theorem c3_dedup_sort_normalized_witness :
    parsePayloadType exCfg.properties.payload_type = some .imageApex ∧
    (walkCollect exCfg).keyFile = some "keys/priv.pem" ∧
    ((normalizedFilesInfo exCfg).map ApexFile.builtFile).Nodup := by
  refine ⟨by decide, by decide, ?_⟩
  exact (c3_dedup_sort_normalized exCfg .imageApex "keys/priv.pem"
    (by decide) (by decide)).1

/-! ## C4: the access-mode manifest partition -/

lemma mem_addAncestorDirsFuel_of_mem :
    ∀ (fuel : Nat) (dir : List String) (ex : List (List String)) (p : List String),
      p ∈ ex → p ∈ addAncestorDirsFuel fuel dir ex
  | 0, _, _, _, hp => hp
  | fuel + 1, dir, ex, p, hp => by
    simp only [addAncestorDirsFuel]
    split_ifs with h
    · exact hp
    · exact mem_addAncestorDirsFuel_of_mem fuel _ _ p (List.mem_append_left _ hp)

lemma dropLast_take_eq {α : Type} (l : List α) (k : Nat) (hk : k ≤ l.length - 1) :
    l.dropLast.take k = l.take k := by
  rw [List.dropLast_eq_take, List.take_take]
  congr 1
  omega

lemma mem_addAncestorDirsFuel_cases :
    ∀ (fuel : Nat) (dir : List String) (ex : List (List String)) (p : List String),
      p ∈ addAncestorDirsFuel fuel dir ex →
      p ∈ ex ∨ ∃ j, 1 ≤ j ∧ j ≤ dir.length ∧ p = dir.take j
  | 0, _, _, _, hp => Or.inl hp
  | fuel + 1, dir, ex, p, hp => by
    simp only [addAncestorDirsFuel] at hp
    split_ifs at hp with h
    · exact Or.inl hp
    · push_neg at h
      rcases mem_addAncestorDirsFuel_cases fuel _ _ p hp with hin | ⟨j, hj1, hj2, hj3⟩
      · rcases List.mem_append.mp hin with hin | hin
        · exact Or.inl hin
        · right
          refine ⟨dir.length, ?_, le_refl _, ?_⟩
          · have : dir ≠ [] := h.1
            have : dir.length ≠ 0 := fun hc => this (List.length_eq_zero.mp hc)
            omega
          · rw [List.take_length]
            exact List.mem_singleton.mp hin
      · right
        have hlen : dir.dropLast.length = dir.length - 1 := List.length_dropLast dir
        refine ⟨j, hj1, by omega, ?_⟩
        rw [hj3]
        exact (dropLast_take_eq dir j (by omega)).symm ▸ rfl

lemma take_mem_addAncestorDirsFuel :
    ∀ (fuel : Nat) (dir : List String) (ex : List (List String)),
      dir.length ≤ fuel → ∀ k, 1 ≤ k → k ≤ dir.length →
      dir.take k ∈ addAncestorDirsFuel fuel dir ex ∨
        ∃ j, k ≤ j ∧ j ≤ dir.length ∧ dir.take j ∈ ex
  | 0, dir, _, hf, k, hk1, hk2 => by omega
  | fuel + 1, dir, ex, hf, k, hk1, hk2 => by
    simp only [addAncestorDirsFuel]
    split_ifs with h
    · rcases h with h | h
      · rw [h] at hk2
        simp at hk2
        omega
      · right
        exact ⟨dir.length, hk2, le_refl _, by rw [List.take_length]; exact h⟩
    · push_neg at h
      have hne : dir.length ≠ 0 := fun hc => h.1 (List.length_eq_zero.mp hc)
      by_cases hk : k = dir.length
      · left
        apply mem_addAncestorDirsFuel_of_mem
        rw [hk, List.take_length]
        exact List.mem_append_right _ (List.mem_singleton.mpr rfl)
      · have hlen : dir.dropLast.length = dir.length - 1 := List.length_dropLast dir
        have hk2' : k ≤ dir.dropLast.length := by omega
        have hf' : dir.dropLast.length ≤ fuel := by omega
        rcases take_mem_addAncestorDirsFuel fuel dir.dropLast (ex ++ [dir]) hf' k hk1 hk2'
          with hl | ⟨j, hj1, hj2, hj3⟩
        · left
          rwa [dropLast_take_eq dir k (by omega)] at hl
        · rw [dropLast_take_eq dir j (by omega)] at hj3
          rcases List.mem_append.mp hj3 with hin | hin
          · right
            exact ⟨j, hj1, by omega, hin⟩
          · exfalso
            have hc := congrArg List.length (List.mem_singleton.mp hin)
            rw [List.length_take] at hc
            simp only [min_def] at hc
            split_ifs at hc <;> omega

lemma take_mem_addAncestorDirs_over_base (dir : List String)
    (ex newE : List (List String)) (hinv : prefixClosed ex)
    (hnew : ∀ q ∈ newE, q.length = 2 ∧ dir = ["bin"]) :
    ∀ k, 1 ≤ k → k ≤ dir.length → dir.take k ∈ addAncestorDirs dir (ex ++ newE) := by
  intro k hk1 hk2
  unfold addAncestorDirs
  rcases take_mem_addAncestorDirsFuel dir.length dir (ex ++ newE) (le_refl _) k hk1 hk2
    with h | ⟨m, hm1, hm2, hm3⟩
  · exact h
  · rcases List.mem_append.mp hm3 with hin | hin
    · rcases eq_or_lt_of_le hm1 with rfl | hlt
      · exact mem_addAncestorDirsFuel_of_mem _ _ _ _ (List.mem_append_left _ hin)
      · have hlen : (dir.take m).length = m := by
          rw [List.length_take]
          omega
        have hp := hinv _ hin k hk1 (by omega)
        rw [List.take_take, min_eq_left (le_of_lt hlt)] at hp
        exact mem_addAncestorDirsFuel_of_mem _ _ _ _ (List.mem_append_left _ hp)
    · exfalso
      obtain ⟨hq2, hbin⟩ := hnew _ hin
      rw [List.length_take] at hq2
      rw [hbin] at hm2
      simp at hm2
      omega

lemma exec_fsConfigStep_base (acc : List (List String) × List (List String))
    (f : ApexFile) :
    (fsConfigStep acc f).2 = addAncestorDirs f.installDir (acc.2 ++ binEntriesOf f) := by
  unfold fsConfigStep binEntriesOf
  split_ifs with h <;> simp [h]

lemma ro_fsConfigStep (acc : List (List String) × List (List String)) (f : ApexFile) :
    (fsConfigStep acc f).1 =
      acc.1 ++ (if f.installDir = ["bin"] then [] else [pathInApex f]) := by
  unfold fsConfigStep
  split_ifs with h <;> simp [h]

lemma binEntriesOf_shape (f : ApexFile) :
    ∀ q ∈ binEntriesOf f, q.length = 2 ∧ f.installDir = ["bin"] := by
  intro q hq
  unfold binEntriesOf at hq
  split_ifs at hq with h
  · refine ⟨?_, h⟩
    rcases List.mem_cons.mp hq with rfl | hq'
    · unfold pathInApex
      rw [h]
      rfl
    · obtain ⟨s, _, rfl⟩ := List.mem_map.mp hq'
      rfl
  · simp at hq

lemma prefixClosed_fsConfigStep (acc : List (List String) × List (List String))
    (f : ApexFile) (hinv : prefixClosed acc.2) :
    prefixClosed (fsConfigStep acc f).2 := by
  rw [exec_fsConfigStep_base]
  intro p hp k hk1 hk2
  rcases mem_addAncestorDirsFuel_cases _ _ _ p hp with hin | ⟨j, hj1, hj2, hj3⟩
  · rcases List.mem_append.mp hin with hin | hin
    · exact mem_addAncestorDirsFuel_of_mem _ _ _ _
        (List.mem_append_left _ (hinv p hin k hk1 hk2))
    · obtain ⟨hq2, hbin⟩ := binEntriesOf_shape f p hin
      have hk : k = 1 := by omega
      have hp1 : p.take k = f.installDir.take k := by
        unfold binEntriesOf at hin
        rw [if_pos hbin] at hin
        rcases List.mem_cons.mp hin with rfl | hin'
        · unfold pathInApex
          rw [hbin, hk]
          simp
        · obtain ⟨s, _, rfl⟩ := List.mem_map.mp hin'
          rw [hbin, hk]
          simp
      rw [hp1]
      exact take_mem_addAncestorDirs_over_base f.installDir acc.2 (binEntriesOf f)
        hinv (binEntriesOf_shape f) k hk1 (by rw [hbin]; simp [hk])
  · subst hj3
    rw [List.take_take]
    have hlen : (List.take j f.installDir).length = j := by
      rw [List.length_take]
      omega
    rw [hlen] at hk2
    rw [min_eq_left (by omega : k ≤ j)]
    exact take_mem_addAncestorDirs_over_base f.installDir acc.2 (binEntriesOf f)
      hinv (binEntriesOf_shape f) k hk1 (by omega)

lemma mem_exec_fsConfigStep (acc : List (List String) × List (List String))
    (f : ApexFile) (p : List String) (hp : p ∈ acc.2) : p ∈ (fsConfigStep acc f).2 := by
  rw [exec_fsConfigStep_base]
  exact mem_addAncestorDirsFuel_of_mem _ _ _ _ (List.mem_append_left _ hp)

lemma mem_ro_fsConfigStep (acc : List (List String) × List (List String))
    (f : ApexFile) (p : List String) (hp : p ∈ acc.1) : p ∈ (fsConfigStep acc f).1 := by
  rw [ro_fsConfigStep]
  exact List.mem_append_left _ hp

lemma mem_exec_fsConfigFold :
    ∀ (files : List ApexFile) (acc : List (List String) × List (List String))
      (p : List String), p ∈ acc.2 → p ∈ (files.foldl fsConfigStep acc).2
  | [], _, _, hp => hp
  | f :: fs, acc, p, hp =>
    mem_exec_fsConfigFold fs _ p (mem_exec_fsConfigStep acc f p hp)

lemma mem_ro_fsConfigFold :
    ∀ (files : List ApexFile) (acc : List (List String) × List (List String))
      (p : List String), p ∈ acc.1 → p ∈ (files.foldl fsConfigStep acc).1
  | [], _, _, hp => hp
  | f :: fs, acc, p, hp =>
    mem_ro_fsConfigFold fs _ p (mem_ro_fsConfigStep acc f p hp)

lemma fsConfigStep_self (acc : List (List String) × List (List String))
    (f : ApexFile) (hinv : prefixClosed acc.2) :
    (f.installDir = ["bin"] →
       pathInApex f ∈ (fsConfigStep acc f).2 ∧
       ∀ s ∈ f.symlinks, ["bin", s] ∈ (fsConfigStep acc f).2) ∧
    (f.installDir ≠ ["bin"] → pathInApex f ∈ (fsConfigStep acc f).1) ∧
    (∀ k, 1 ≤ k → k ≤ f.installDir.length →
       f.installDir.take k ∈ (fsConfigStep acc f).2) := by
  refine ⟨?_, ?_, ?_⟩
  · intro hbin
    constructor
    · rw [exec_fsConfigStep_base]
      apply mem_addAncestorDirsFuel_of_mem
      apply List.mem_append_right
      unfold binEntriesOf
      rw [if_pos hbin]
      exact List.mem_cons_self _ _
    · intro s hs
      rw [exec_fsConfigStep_base]
      apply mem_addAncestorDirsFuel_of_mem
      apply List.mem_append_right
      unfold binEntriesOf
      rw [if_pos hbin]
      exact List.mem_cons_of_mem _ (List.mem_map_of_mem _ hs)
  · intro hbin
    rw [ro_fsConfigStep, if_neg hbin]
    exact List.mem_append_right _ (List.mem_singleton.mpr rfl)
  · intro k hk1 hk2
    rw [exec_fsConfigStep_base]
    exact take_mem_addAncestorDirs_over_base f.installDir acc.2 (binEntriesOf f)
      hinv (binEntriesOf_shape f) k hk1 hk2

lemma fsConfigFold_self :
    ∀ (files : List ApexFile) (acc : List (List String) × List (List String))
      (f : ApexFile), f ∈ files → prefixClosed acc.2 →
      ((f.installDir = ["bin"] →
          pathInApex f ∈ (files.foldl fsConfigStep acc).2 ∧
          ∀ s ∈ f.symlinks, ["bin", s] ∈ (files.foldl fsConfigStep acc).2) ∧
       (f.installDir ≠ ["bin"] → pathInApex f ∈ (files.foldl fsConfigStep acc).1) ∧
       (∀ k, 1 ≤ k → k ≤ f.installDir.length →
          f.installDir.take k ∈ (files.foldl fsConfigStep acc).2))
  | [], _, f, hf, _ => absurd hf (List.not_mem_nil f)
  | g :: fs, acc, f, hf, hinv => by
    rcases List.mem_cons.mp hf with rfl | hf'
    · obtain ⟨h1, h2, h3⟩ := fsConfigStep_self acc f hinv
      refine ⟨?_, ?_, ?_⟩
      · intro hbin
        obtain ⟨ha, hb⟩ := h1 hbin
        exact ⟨mem_exec_fsConfigFold fs _ _ ha,
               fun s hs => mem_exec_fsConfigFold fs _ _ (hb s hs)⟩
      · intro hbin
        exact mem_ro_fsConfigFold fs _ _ (h2 hbin)
      · intro k hk1 hk2
        exact mem_exec_fsConfigFold fs _ _ (h3 k hk1 hk2)
    · exact fsConfigFold_self fs (fsConfigStep acc g) f hf'
        (prefixClosed_fsConfigStep acc g hinv)

lemma count_addAncestorDirsFuel_le_one :
    ∀ (fuel : Nat) (dir : List String) (ex : List (List String)) (d : List String),
      List.count d ex ≤ 1 → List.count d (addAncestorDirsFuel fuel dir ex) ≤ 1
  | 0, _, _, _, h => h
  | fuel + 1, dir, ex, d, h => by
    simp only [addAncestorDirsFuel]
    split_ifs with hg
    · exact h
    · push_neg at hg
      apply count_addAncestorDirsFuel_le_one
      rw [List.count_append, List.count_singleton]
      split_ifs with hd
      · have hdd : d = dir := (beq_iff_eq.mp hd).symm
        subst hdd
        have : List.count d ex = 0 := List.count_eq_zero.mpr hg.2
        omega
      · omega

lemma count_exec_fsConfigStep (acc : List (List String) × List (List String))
    (f : ApexFile) (d : List String) (hd : d ∉ binEntriesOf f)
    (h : List.count d acc.2 ≤ 1) : List.count d (fsConfigStep acc f).2 ≤ 1 := by
  rw [exec_fsConfigStep_base]
  apply count_addAncestorDirsFuel_le_one
  rw [List.count_append]
  have : List.count d (binEntriesOf f) = 0 := List.count_eq_zero.mpr hd
  omega

lemma count_exec_fsConfigFold :
    ∀ (files : List ApexFile) (acc : List (List String) × List (List String))
      (d : List String), (∀ f ∈ files, d ∉ binEntriesOf f) →
      List.count d acc.2 ≤ 1 → List.count d (files.foldl fsConfigStep acc).2 ≤ 1
  | [], _, _, _, h => h
  | f :: fs, acc, d, hd, h =>
    count_exec_fsConfigFold fs _ d (fun g hg => hd g (List.mem_cons_of_mem _ hg))
      (count_exec_fsConfigStep acc f d (hd f (List.mem_cons_self _ _)) h)

/-- C4 counterexample: a file installed at `bin/sub/tool` is placed in
the *read-only* partition, not the executable one; only the ancestor
directories `bin` and `bin/sub` reach the executable partition. -/
theorem c4_counterexample :
    BuildRule.generateFsConfig [["bin", "sub", "tool"]] [["bin"], ["bin", "sub"]]
        ∈ (generateAndroidBuildActions exCfgBinSub).rules ∧
    ["bin", "sub", "tool"] ∉ [["bin"], ["bin", "sub"]] := by
  decide

/-- C4 (amended): a file's in-package path lands in the executable
partition exactly when its install directory is literally `bin` (its
symlinks land there too), and otherwise in the read-only partition;
every nonempty prefix of every file's install directory is listed in
the executable partition, and any path that is not a direct bin-file or
symlink entry occurs there at most once. -/
theorem c4_fs_config_partition (filesInfo : List ApexFile) (f : ApexFile)
    (hf : f ∈ filesInfo) :
    (f.installDir = ["bin"] →
       pathInApex f ∈ (cannedFsConfigPaths filesInfo).2 ∧
       ∀ s ∈ f.symlinks, ["bin", s] ∈ (cannedFsConfigPaths filesInfo).2) ∧
    (f.installDir ≠ ["bin"] → pathInApex f ∈ (cannedFsConfigPaths filesInfo).1) ∧
    (∀ k, 1 ≤ k → k ≤ f.installDir.length →
       f.installDir.take k ∈ (cannedFsConfigPaths filesInfo).2) ∧
    (∀ d : List String, d ∉ binEntryPaths filesInfo →
       List.count d (cannedFsConfigPaths filesInfo).2 ≤ 1) := by
  have hperm2 : ((cannedFsConfigPaths filesInfo).2).Perm (fsConfigPathsRaw filesInfo).2 :=
    List.perm_insertionSort pathLe _
  have hperm1 : ((cannedFsConfigPaths filesInfo).1).Perm (fsConfigPathsRaw filesInfo).1 :=
    List.perm_insertionSort pathLe _
  have hinv0 : prefixClosed ([] : List (List String)) := by
    intro p hp
    simp at hp
  obtain ⟨h1, h2, h3⟩ :=
    fsConfigFold_self filesInfo ([], []) f hf hinv0
  refine ⟨?_, ?_, ?_, ?_⟩
  · intro hbin
    obtain ⟨ha, hb⟩ := h1 hbin
    exact ⟨hperm2.mem_iff.mpr ha, fun s hs => hperm2.mem_iff.mpr (hb s hs)⟩
  · intro hbin
    exact hperm1.mem_iff.mpr (h2 hbin)
  · intro k hk1 hk2
    exact hperm2.mem_iff.mpr (h3 k hk1 hk2)
  · intro d hd
    have hc : List.count d (cannedFsConfigPaths filesInfo).2 =
        List.count d (fsConfigPathsRaw filesInfo).2 := hperm2.countP_eq _
    rw [hc]
    show List.count d (filesInfo.foldl fsConfigStep ([], [])).2 ≤ 1
    apply count_exec_fsConfigFold filesInfo ([], []) d
    · intro g hg hcc
      exact hd (List.mem_flatMap.mpr ⟨g, hg, hcc⟩)
    · simp

/-- Witness for the amended C4 at a concrete bin file with a symlink. -/
theorem c4_fs_config_partition_witness :
    exBinFile ∈ [exBinFile] ∧
    pathInApex exBinFile ∈ (cannedFsConfigPaths [exBinFile]).2 := by
  refine ⟨List.mem_singleton.mpr rfl, ?_⟩
  exact ((c4_fs_config_partition [exBinFile] exBinFile
    (List.mem_singleton.mpr rfl)).1 rfl).1

/-! ## C5: the variant-propagation walk and the install-dependency table -/

lemma walkDepsEntries_indirect_false :
    ∀ (ds : List DepModule) (e : String × Bool),
      e ∈ walkDepsEntries false ds → e.2 = false
  | [], e => by simp [walkDepsEntries]
  | .node n can cs :: rest, e => by
    simp only [walkDepsEntries, List.mem_cons, List.mem_append]
    rintro (rfl | h | h)
    · rfl
    · cases can with
      | false => simp at h
      | true => exact walkDepsEntries_indirect_false cs e h
    · exact walkDepsEntries_indirect_false rest e h

lemma walkDepsEntries_filter_direct :
    ∀ (ds : List DepModule),
      (walkDepsEntries true ds).filter (fun e => e.2) = ds.map (fun d => (d.nm, true))
  | [] => by simp [walkDepsEntries]
  | .node n can cs :: rest => by
    simp only [walkDepsEntries, List.filter_cons, List.filter_append]
    have hsub : (if can then walkDepsEntries false cs else []).filter (fun e => e.2) = [] := by
      cases can with
      | false => simp
      | true =>
        simp only [if_pos]
        rw [List.filter_eq_nil_iff]
        intro e he
        simpa using walkDepsEntries_indirect_false cs e he
    rw [hsub]
    simp [walkDepsEntries_filter_direct rest, DepModule.nm]

lemma walkDepsEntries_eq_nil_iff :
    ∀ (b : Bool) (ds : List DepModule), walkDepsEntries b ds = [] ↔ ds = []
  | _, [] => by simp [walkDepsEntries]
  | _, .node n can cs :: rest => by simp [walkDepsEntries]

lemma mem_dedupPairsAux :
    ∀ (seen : List (String × String)) (l : List (String × String)) (p : String × String),
      p ∈ dedupPairsAux seen l ↔ (p ∈ l ∧ p ∉ seen)
  | _, [], p => by simp [dedupPairsAux]
  | seen, q :: qs, p => by
    simp only [dedupPairsAux]
    split_ifs with h
    · rw [mem_dedupPairsAux seen qs p]
      simp only [List.mem_cons]
      constructor
      · rintro ⟨hm, hn⟩
        exact ⟨Or.inr hm, hn⟩
      · rintro ⟨hm | hm, hn⟩
        · rw [hm] at hn
          exact absurd h hn
        · exact ⟨hm, hn⟩
    · simp only [List.mem_cons, mem_dedupPairsAux (q :: seen) qs p]
      constructor
      · rintro (rfl | ⟨hm, hn⟩)
        · exact ⟨Or.inl rfl, h⟩
        · exact ⟨Or.inr hm, fun hc => hn (Or.inr hc)⟩
      · rintro ⟨rfl | hm, hn⟩
        · exact Or.inl rfl
        · by_cases hpq : p = q
          · exact Or.inl hpq
          · refine Or.inr ⟨hm, fun hc => ?_⟩
            rcases hc with hc | hc
            · exact hpq hc
            · exact hn hc

/-- C5: during the variant-propagation walk from a bundle, an
install-dependency relation (bundle name, child name) is recorded in
the shared table exactly for children directly reachable from the
bundle node of an installable, non-test bundle; and the walk descends
past a child (produces entries beyond the child's own) precisely when
the child can have package-scoped variants and has dependencies. -/
theorem c5_variant_walk (b : ApexDepsBundle) (dn : String) (c : DepModule) :
    (((b.name, dn) ∈ apexDepsMutator b) ↔
       (b.installable = true ∧ b.testApex = false ∧
        dn ∈ b.deps.map DepModule.nm)) ∧
    (1 < (walkDepsEntries true [c]).length ↔
       (c.canHave = true ∧ c.children ≠ [])) := by
  constructor
  · unfold apexDepsMutator updateApexDependencyTable dedupPairs
    split_ifs with hg
    · rw [mem_dedupPairsAux]
      simp only [List.not_mem_nil, not_false_iff, and_true]
      rw [walkDepsEntries_filter_direct, List.map_map]
      simp only [hg.1, hg.2, true_and]
      constructor
      · intro hm
        obtain ⟨d, hd, he⟩ := List.mem_map.mp hm
        have hdn : d.nm = dn := by
          have h2 := congrArg Prod.snd he
          simpa using h2
        exact hdn ▸ List.mem_map_of_mem _ hd
      · intro hm
        obtain ⟨d, hd, he⟩ := List.mem_map.mp hm
        exact List.mem_map.mpr ⟨d, hd, by simp [Function.comp, he]⟩
    · simp only [List.not_mem_nil, false_iff]
      rintro ⟨h1, h2, -⟩
      exact hg ⟨h1, h2⟩
  · cases c with
    | node n can cs =>
      cases can with
      | false => simp [walkDepsEntries, DepModule.canHave, DepModule.children]
      | true =>
        simp only [DepModule.canHave, DepModule.children, true_and]
        have hlen : (walkDepsEntries true [DepModule.node n true cs]).length =
            (walkDepsEntries false cs).length + 1 := by
          simp [walkDepsEntries]
        rw [hlen]
        constructor
        · intro h hcs
          rw [hcs] at h
          simp [walkDepsEntries] at h
        · intro hcs
          have hne : walkDepsEntries false cs ≠ [] :=
            fun hc => hcs ((walkDepsEntries_eq_nil_iff false cs).mp hc)
          have hpos : 0 < (walkDepsEntries false cs).length := List.length_pos.mpr hne
          omega

/-! ## C6: an undexed java library is a recoverable error -/

lemma walkStep_errors_eq (dbg hsl : Bool) (st : WalkState) (ev : WalkEvent) :
    (walkStep dbg hsl st ev).errors = st.errors ++ walkStepErrors ev := by
  cases ev with
  | indirect child =>
    cases child <;> simp [walkStep, walkStepErrors] <;> split_ifs <;> simp
  | direct tag child =>
    cases tag <;> cases child <;>
      simp [walkStep, walkStepErrors, getCopyManifestForJavaLibrary] <;>
      first
        | (split_ifs <;> simp)
        | (rename_i dex
           cases dex <;> simp [walkStep, walkStepErrors, getCopyManifestForJavaLibrary])
        | skip

lemma walkStepErrors_count_javaNotDexed (ev : WalkEvent) (n : String) :
    (walkStepErrors ev).count (.javaNotDexed n) =
      if ev = .direct .javaLib (.javaLibrary n none) then 1 else 0 := by
  cases ev with
  | indirect child => simp [walkStepErrors]
  | direct tag child =>
    cases tag with
    | sharedLib => cases child <;> simp [walkStepErrors]
    | executable => cases child <;> simp [walkStepErrors]
    | prebuilt => cases child <;> simp [walkStepErrors]
    | key => cases child <;> simp [walkStepErrors]
    | certificate => cases child <;> simp [walkStepErrors]
    | javaLib =>
      cases child with
      | cc m => simp [walkStepErrors]
      | sh a b c => simp [walkStepErrors]
      | prebuiltEtc a b c => simp [walkStepErrors]
      | apexKey k => simp [walkStepErrors]
      | appCert a b c => simp [walkStepErrors]
      | otherKind a => simp [walkStepErrors]
      | javaLibrary n' dex =>
        cases dex with
        | some f => simp [walkStepErrors]
        | none =>
          by_cases h : n' = n
          · subst h
            simp [walkStepErrors]
          · simp [walkStepErrors, List.count_singleton, h]

lemma foldl_walkStep_count_javaNotDexed :
    ∀ (events : List WalkEvent) (dbg hsl : Bool) (st : WalkState) (n : String),
      ((events.foldl (walkStep dbg hsl) st).errors).count (.javaNotDexed n) =
        st.errors.count (.javaNotDexed n) +
          events.count (.direct .javaLib (.javaLibrary n none))
  | [], _, _, _, _ => by simp
  | ev :: evs, dbg, hsl, st, n => by
    rw [List.foldl_cons, foldl_walkStep_count_javaNotDexed evs dbg hsl _ n,
      walkStep_errors_eq, List.count_append, walkStepErrors_count_javaNotDexed,
      List.count_cons]
    by_cases h : ev = WalkEvent.direct .javaLib (.javaLibrary n none)
    · simp only [h, if_pos rfl, beq_self_eq_true, if_true]
      omega
    · have hb : ¬ ((ev == WalkEvent.direct .javaLib (.javaLibrary n none)) = true) :=
        fun hc => h (beq_iff_eq.mp hc)
      rw [if_neg h, if_neg hb]
      omega

lemma buildUnflattened_image_rules (cfg : ApexConfig) (fi : List ApexFile)
    (kf0 : String) (pub : Option String) (cert : Option (String × String)) :
    (buildUnflattenedApex cfg fi kf0 pub cert .imageApex).rules =
      (if cfg.fileContextsExists = false then
        [BuildRule.generateFsConfig (cannedFsConfigPaths fi).1 (cannedFsConfigPaths fi).2]
       else
        [BuildRule.generateFsConfig (cannedFsConfigPaths fi).1 (cannedFsConfigPaths fi).2,
         BuildRule.apexRule kf0 (imageOptFlags pub cfg.overrideManifestPackageName),
         BuildRule.apexProtoConvertRule,
         BuildRule.apexBundleRule
           (firstUniqueStrings (cfg.targets.filterMap (fun t => t.abi.head?))),
         BuildRule.signapk (pathForModuleOut cfg (cfg.moduleName ++ imageApexSuffix))
           (resolveCertificate cfg cert).1 (resolveCertificate cfg cert).2]) := by
  unfold buildUnflattenedApex
  split_ifs <;> first | rfl | simp_all [ApexPackaging.image]

lemma buildUnflattened_zip_rules (cfg : ApexConfig) (fi : List ApexFile)
    (kf0 : String) (pub : Option String) (cert : Option (String × String)) :
    (buildUnflattenedApex cfg fi kf0 pub cert .zipApex).rules =
      [BuildRule.zipApexRule,
       BuildRule.signapk (pathForModuleOut cfg (cfg.moduleName ++ zipApexSuffix))
         (resolveCertificate cfg cert).1 (resolveCertificate cfg cert).2] := rfl

lemma apexRule_mem_buildUnflattened_elim (cfg : ApexConfig) (fi : List ApexFile)
    (kf0 : String) (pub : Option String) (cert : Option (String × String))
    (t : ApexPackaging) (kf : String) (flags : List OptFlag)
    (hm : BuildRule.apexRule kf flags ∈ (buildUnflattenedApex cfg fi kf0 pub cert t).rules) :
    kf = kf0 ∧ flags = imageOptFlags pub cfg.overrideManifestPackageName := by
  cases t with
  | both => exact absurd hm (List.not_mem_nil _)
  | zipApex =>
    rw [buildUnflattened_zip_rules] at hm
    rcases List.mem_cons.mp hm with h | hm
    · exact absurd h (by simp)
    rcases List.mem_cons.mp hm with h | hm
    · exact absurd h (by simp)
    exact absurd hm (List.not_mem_nil _)
  | imageApex =>
    rw [buildUnflattened_image_rules] at hm
    by_cases hfc : cfg.fileContextsExists = false
    · rw [if_pos hfc] at hm
      rcases List.mem_cons.mp hm with h | hm
      · exact absurd h (by simp)
      exact absurd hm (List.not_mem_nil _)
    · rw [if_neg hfc] at hm
      rcases List.mem_cons.mp hm with h | hm
      · exact absurd h (by simp)
      rcases List.mem_cons.mp hm with h | hm
      · injection h with h1 h2
        exact ⟨h1, h2⟩
      rcases List.mem_cons.mp hm with h | hm
      · exact absurd h (by simp)
      rcases List.mem_cons.mp hm with h | hm
      · exact absurd h (by simp)
      rcases List.mem_cons.mp hm with h | hm
      · exact absurd h (by simp)
      exact absurd hm (List.not_mem_nil _)

lemma buildUnflattened_errors_nil (cfg : ApexConfig) (fi : List ApexFile)
    (kf : String) (pub : Option String) (cert : Option (String × String))
    (t : ApexPackaging) (hfc : cfg.fileContextsExists = true) :
    (buildUnflattenedApex cfg fi kf pub cert t).errors = [] := by
  cases t <;>
    simp [buildUnflattenedApex, ApexPackaging.suffix, ApexPackaging.name,
      ApexPackaging.image, hfc]

lemma signapk_mem_buildUnflattened_image (cfg : ApexConfig) (fi : List ApexFile)
    (kf : String) (pub : Option String) (cert : Option (String × String))
    (hfc : cfg.fileContextsExists = true) :
    BuildRule.signapk (pathForModuleOut cfg (cfg.moduleName ++ imageApexSuffix))
        (resolveCertificate cfg cert).1 (resolveCertificate cfg cert).2
      ∈ (buildUnflattenedApex cfg fi kf pub cert .imageApex).rules := by
  simp [buildUnflattenedApex, ApexPackaging.suffix, ApexPackaging.name,
    ApexPackaging.image, hfc]

lemma signapk_mem_buildUnflattened_zip (cfg : ApexConfig) (fi : List ApexFile)
    (kf : String) (pub : Option String) (cert : Option (String × String)) :
    BuildRule.signapk (pathForModuleOut cfg (cfg.moduleName ++ zipApexSuffix))
        (resolveCertificate cfg cert).1 (resolveCertificate cfg cert).2
      ∈ (buildUnflattenedApex cfg fi kf pub cert .zipApex).rules := by
  simp [buildUnflattenedApex, ApexPackaging.suffix, ApexPackaging.name,
    ApexPackaging.image]

lemma generateWithKey_rules (cfg : ApexConfig) (tp : ApexPackaging) (kf : String) :
    (generateWithKey cfg tp kf).rules =
      (genZipOut cfg tp kf).rules ++ (genImageOut cfg tp kf).rules ++
        (genFlatOut cfg tp).rules := rfl

lemma generateWithKey_errors (cfg : ApexConfig) (tp : ApexPackaging) (kf : String) :
    (generateWithKey cfg tp kf).errors =
      (walkCollect cfg).errors ++ (genZipOut cfg tp kf).errors ++
        (genImageOut cfg tp kf).errors := rfl

lemma generateWithKey_installs (cfg : ApexConfig) (tp : ApexPackaging) (kf : String) :
    (generateWithKey cfg tp kf).installs =
      (genZipOut cfg tp kf).installs ++ (genImageOut cfg tp kf).installs ++
        (genFlatOut cfg tp).installs := rfl

lemma generateWithKey_fatal (cfg : ApexConfig) (tp : ApexPackaging) (kf : String) :
    (generateWithKey cfg tp kf).fatal = none := rfl

lemma generateWithKey_invoked (cfg : ApexConfig) (tp : ApexPackaging) (kf : String) :
    (generateWithKey cfg tp kf).invoked =
      (if tp.zip = true then [ApexPackaging.zipApex] else []) ++
        (if tp.image = true then [ApexPackaging.imageApex] else []) := rfl

lemma generateWithKey_panicked (cfg : ApexConfig) (tp : ApexPackaging) (kf : String) :
    (generateWithKey cfg tp kf).panicked =
      ((genZipOut cfg tp kf).panicked || (genImageOut cfg tp kf).panicked) := rfl

lemma signapk_mem_generateWithKey (cfg : ApexConfig) (tp : ApexPackaging) (kf : String)
    (hfc : cfg.fileContextsExists = true) :
    ∃ out certP certK, BuildRule.signapk out certP certK ∈
      (generateWithKey cfg tp kf).rules := by
  cases tp with
  | imageApex =>
    refine ⟨pathForModuleOut cfg (cfg.moduleName ++ imageApexSuffix),
      (resolveCertificate cfg (walkCollect cfg).certificate).1,
      (resolveCertificate cfg (walkCollect cfg).certificate).2, ?_⟩
    rw [generateWithKey_rules]
    refine List.mem_append_left _ (List.mem_append_right _ ?_)
    show _ ∈ (buildUnflattenedApex cfg (normalizedFilesInfo cfg) kf
      (walkCollect cfg).pubKeyFile (walkCollect cfg).certificate .imageApex).rules
    exact signapk_mem_buildUnflattened_image cfg _ kf _ _ hfc
  | zipApex =>
    refine ⟨pathForModuleOut cfg (cfg.moduleName ++ zipApexSuffix),
      (resolveCertificate cfg (walkCollect cfg).certificate).1,
      (resolveCertificate cfg (walkCollect cfg).certificate).2, ?_⟩
    rw [generateWithKey_rules]
    refine List.mem_append_left _ (List.mem_append_left _ ?_)
    show _ ∈ (buildUnflattenedApex cfg (normalizedFilesInfo cfg) kf
      (walkCollect cfg).pubKeyFile (walkCollect cfg).certificate .zipApex).rules
    exact signapk_mem_buildUnflattened_zip cfg _ kf _ _
  | both =>
    refine ⟨pathForModuleOut cfg (cfg.moduleName ++ zipApexSuffix),
      (resolveCertificate cfg (walkCollect cfg).certificate).1,
      (resolveCertificate cfg (walkCollect cfg).certificate).2, ?_⟩
    rw [generateWithKey_rules]
    refine List.mem_append_left _ (List.mem_append_left _ ?_)
    show _ ∈ (buildUnflattenedApex cfg (normalizedFilesInfo cfg) kf
      (walkCollect cfg).pubKeyFile (walkCollect cfg).certificate .zipApex).rules
    exact signapk_mem_buildUnflattened_zip cfg _ kf _ _

/-- C6: a java-lib dependency with no compiled dex archive produces
exactly one recoverable error naming it; generation does not abort: no
fatal error is recorded, a signing (package artifact) rule is still
emitted, and every collected file still reaches the final file list. -/
theorem c6_java_lib_recoverable (cfg : ApexConfig) (tp : ApexPackaging) (kf : String)
    (n : String)
    (hparse : parsePayloadType cfg.properties.payload_type = some tp)
    (hkey : (walkCollect cfg).keyFile = some kf)
    (hfc : cfg.fileContextsExists = true)
    (hcount : cfg.walkEvents.count (.direct .javaLib (.javaLibrary n none)) = 1) :
    ((generateAndroidBuildActions cfg).errors).count (.javaNotDexed n) = 1 ∧
    (generateAndroidBuildActions cfg).fatal = none ∧
    (∃ out certP certK, BuildRule.signapk out certP certK ∈
        (generateAndroidBuildActions cfg).rules) ∧
    (∀ f ∈ (walkCollect cfg).filesInfo,
        f.builtFile ∈ ((generateAndroidBuildActions cfg).filesInfo).map
          ApexFile.builtFile) := by
  rw [generate_eq_generateWithKey cfg tp kf hparse hkey]
  refine ⟨?_, ?_, ?_, ?_⟩
  · rw [generateWithKey_errors, List.count_append, List.count_append]
    have h1 : ((walkCollect cfg).errors).count (.javaNotDexed n) = 1 := by
      unfold walkCollect
      rw [foldl_walkStep_count_javaNotDexed]
      simpa [startWalkState] using hcount
    have hzz : (genZipOut cfg tp kf).errors.count (.javaNotDexed n) = 0 := by
      unfold genZipOut
      split_ifs
      · rw [buildUnflattened_errors_nil cfg _ kf _ _ _ hfc]
        rfl
      · rfl
    have hii : (genImageOut cfg tp kf).errors.count (.javaNotDexed n) = 0 := by
      unfold genImageOut
      split_ifs
      · rw [buildUnflattened_errors_nil cfg _ kf _ _ _ hfc]
        rfl
      · rfl
    rw [h1, hzz, hii]
  · rfl
  · exact signapk_mem_generateWithKey cfg tp kf hfc
  · intro f hf
    rw [← generate_eq_generateWithKey cfg tp kf hparse hkey,
      generate_filesInfo_eq cfg tp kf hparse hkey, List.map_append]
    exact List.mem_append_left _ (builtFile_mem_normalized cfg f hf)

/-- Witness for C6 at a configuration with one undexed java library. -/
theorem c6_java_lib_recoverable_witness :
    exCfgJava.walkEvents.count (.direct .javaLib (.javaLibrary "badjava" none)) = 1 ∧
    ((generateAndroidBuildActions exCfgJava).errors).count (.javaNotDexed "badjava") = 1 := by
  refine ⟨by decide, ?_⟩
  exact (c6_java_lib_recoverable exCfgJava .imageApex "keys/priv.pem" "badjava"
    (by decide) (by decide) (by decide) (by decide)).1

/-! ## C7: unflattened image rules are independent of the flatten mode -/

lemma buildUnflattened_rules_flatten_independent (cfg : ApexConfig) (b : Bool)
    (fi : List ApexFile) (kf : String) (pub : Option String)
    (cert : Option (String × String)) (t : ApexPackaging) :
    (buildUnflattenedApex { cfg with flattenApex := b } fi kf pub cert t).rules =
      (buildUnflattenedApex cfg fi kf pub cert t).rules := by
  cases t with
  | both => rfl
  | zipApex => rfl
  | imageApex =>
    simp only [buildUnflattenedApex, ApexPackaging.suffix, ApexPackaging.name,
      ApexPackaging.image]
    split_ifs <;> rfl

lemma apexRule_mem_buildUnflattened_image (cfg : ApexConfig) (fi : List ApexFile)
    (kf : String) (pub : Option String) (cert : Option (String × String))
    (hfc : cfg.fileContextsExists = true) :
    BuildRule.apexRule kf (imageOptFlags pub cfg.overrideManifestPackageName)
      ∈ (buildUnflattenedApex cfg fi kf pub cert .imageApex).rules := by
  simp [buildUnflattenedApex, ApexPackaging.suffix, ApexPackaging.name,
    ApexPackaging.image, hfc]

lemma buildUnflattened_installs_cases (cfg : ApexConfig) (fi : List ApexFile)
    (kf : String) (pub : Option String) (cert : Option (String × String))
    (t : ApexPackaging) (a : InstallAction)
    (ha : a ∈ (buildUnflattenedApex cfg fi kf pub cert t).installs) :
    cfg.installable = true ∧ cfg.flattenApex = false := by
  cases t <;>
    (unfold buildUnflattenedApex at ha
     simp only [ApexPackaging.suffix, ApexPackaging.name, ApexPackaging.image] at ha) <;>
    (try split_ifs at ha) <;>
    first
      | assumption
      | simp at ha

/-- The install action of the unflattened image artifact. -/
lemma image_install_mem_iff (cfg : ApexConfig) (tp : ApexPackaging) (kf : String)
    (himg : tp.image = true) (hfc : cfg.fileContextsExists = true) :
    ((⟨["apex"], cfg.moduleName ++ imageApexSuffix,
        pathForModuleOut cfg (cfg.moduleName ++ imageApexSuffix)⟩ : InstallAction)
        ∈ (generateWithKey cfg tp kf).installs ↔
      (cfg.installable = true ∧ cfg.flattenApex = false)) := by
  rw [generateWithKey_installs]
  constructor
  · intro hm
    rcases List.mem_append.mp hm with hm | hm
    · rcases List.mem_append.mp hm with hm | hm
      · unfold genZipOut at hm
        by_cases hz : tp.zip = true
        · rw [if_pos hz] at hm
          exact buildUnflattened_installs_cases cfg _ kf _ _ _ _ hm
        · rw [if_neg hz] at hm
          simp [emptyUnflattenedOut] at hm
      · unfold genImageOut at hm
        by_cases hz : tp.image = true
        · rw [if_pos hz] at hm
          exact buildUnflattened_installs_cases cfg _ kf _ _ _ _ hm
        · rw [if_neg hz] at hm
          simp [emptyUnflattenedOut] at hm
    · unfold genFlatOut at hm
      rw [if_pos himg] at hm
      unfold buildFlattenedApex at hm
      by_cases hi : cfg.installable = true
      · rw [if_pos hi] at hm
        dsimp only at hm
        by_cases hf : cfg.flattenApex = true
        · rw [if_pos hf] at hm
          obtain ⟨f, _, heq⟩ := List.mem_map.mp hm
          have hdir := congrArg InstallAction.dir heq
          have hlen := congrArg List.length hdir
          simp at hlen
        · rw [if_neg hf] at hm
          simp at hm
      · rw [if_neg hi] at hm
        simp at hm
  · rintro ⟨hin, hfl⟩
    refine List.mem_append_left _ (List.mem_append_right _ ?_)
    unfold genImageOut
    rw [if_pos himg]
    unfold buildUnflattenedApex
    simp only [ApexPackaging.suffix, ApexPackaging.name, ApexPackaging.image]
    rw [if_pos trivial, if_neg (by rw [hfc]; simp), if_pos ⟨hin, hfl⟩]
    exact List.mem_singleton.mpr rfl

/-- C7: for an image-payload bundle the unflattened image build rules
are emitted independently of the flattened/unflattened global
selection; that selection (together with installability) decides only
whether the unflattened artifact is installed. -/
theorem c7_unflattened_always_built (cfg : ApexConfig) (tp : ApexPackaging) (kf : String)
    (hparse : parsePayloadType cfg.properties.payload_type = some tp)
    (hkey : (walkCollect cfg).keyFile = some kf)
    (himg : tp.image = true)
    (hfc : cfg.fileContextsExists = true) :
    (∃ flags, BuildRule.apexRule kf flags ∈ (generateAndroidBuildActions cfg).rules) ∧
    ((generateAndroidBuildActions { cfg with flattenApex := true }).rules =
       (generateAndroidBuildActions { cfg with flattenApex := false }).rules) ∧
    ((⟨["apex"], cfg.moduleName ++ imageApexSuffix,
        pathForModuleOut cfg (cfg.moduleName ++ imageApexSuffix)⟩ : InstallAction)
        ∈ (generateAndroidBuildActions cfg).installs ↔
      (cfg.installable = true ∧ cfg.flattenApex = false)) := by
  refine ⟨?_, ?_, ?_⟩
  · refine ⟨imageOptFlags (walkCollect cfg).pubKeyFile cfg.overrideManifestPackageName, ?_⟩
    rw [generate_eq_generateWithKey cfg tp kf hparse hkey, generateWithKey_rules]
    refine List.mem_append_left _ (List.mem_append_right _ ?_)
    show _ ∈ (genImageOut cfg tp kf).rules
    unfold genImageOut
    rw [if_pos himg]
    exact apexRule_mem_buildUnflattened_image cfg _ kf _ _ hfc
  · have hgen : ∀ b : Bool,
        generateAndroidBuildActions { cfg with flattenApex := b } =
          generateWithKey { cfg with flattenApex := b } tp kf := by
      intro b
      exact generate_eq_generateWithKey _ tp kf hparse hkey
    rw [hgen true, hgen false, generateWithKey_rules, generateWithKey_rules]
    have hz : ∀ b : Bool, (genZipOut { cfg with flattenApex := b } tp kf).rules =
        (genZipOut cfg tp kf).rules := by
      intro b
      unfold genZipOut
      split_ifs
      all_goals first
        | exact buildUnflattened_rules_flatten_independent cfg b _ kf _ _ _
        | rfl
    have hi : ∀ b : Bool, (genImageOut { cfg with flattenApex := b } tp kf).rules =
        (genImageOut cfg tp kf).rules := by
      intro b
      unfold genImageOut
      split_ifs
      all_goals first
        | exact buildUnflattened_rules_flatten_independent cfg b _ kf _ _ _
        | rfl
    have hfr : ∀ b : Bool, (genFlatOut { cfg with flattenApex := b } tp).rules =
        (genFlatOut cfg tp).rules := by
      intro b
      unfold genFlatOut
      split_ifs
      all_goals first
        | (unfold buildFlattenedApex
           rw [show ApexConfig.installable { cfg with flattenApex := b } =
               ApexConfig.installable cfg from rfl]
           split_ifs <;> rfl)
        | rfl
    rw [hz true, hz false, hi true, hi false, hfr true, hfr false]
  · rw [generate_eq_generateWithKey cfg tp kf hparse hkey]
    exact image_install_mem_iff cfg tp kf himg hfc

/-- Witness for C7 at the baseline configuration. -/
theorem c7_unflattened_always_built_witness :
    (∃ flags, BuildRule.apexRule "keys/priv.pem" flags ∈
      (generateAndroidBuildActions exCfg).rules) := by
  exact (c7_unflattened_always_built exCfg .imageApex "keys/priv.pem"
    (by decide) (by decide) (by decide) (by decide)).1

/-! ## C8: debug-only public-key embedding -/

lemma walkStep_preserves_key (dbg hsl : Bool) (st : WalkState) (ev : WalkEvent)
    (hev : isApexKeyEvent ev = false) :
    (walkStep dbg hsl st ev).keyFile = st.keyFile ∧
    (walkStep dbg hsl st ev).pubKeyFile = st.pubKeyFile := by
  cases ev with
  | indirect child =>
    cases child <;> simp [walkStep] <;> split_ifs <;> simp
  | direct tag child =>
    cases tag <;> cases child <;>
      simp_all [walkStep, isApexKeyEvent, getCopyManifestForJavaLibrary] <;>
      first
        | (split_ifs <;> simp)
        | (rename_i dex
           cases dex <;> simp [walkStep, getCopyManifestForJavaLibrary])
        | skip

lemma foldl_walkStep_preserves_key :
    ∀ (events : List WalkEvent) (dbg hsl : Bool) (st : WalkState),
      (∀ e ∈ events, isApexKeyEvent e = false) →
      (events.foldl (walkStep dbg hsl) st).keyFile = st.keyFile ∧
      (events.foldl (walkStep dbg hsl) st).pubKeyFile = st.pubKeyFile
  | [], _, _, _, _ => ⟨rfl, rfl⟩
  | ev :: evs, dbg, hsl, st, h => by
    rw [List.foldl_cons]
    obtain ⟨h1, h2⟩ := walkStep_preserves_key dbg hsl st ev (h ev (List.mem_cons_self _ _))
    obtain ⟨h3, h4⟩ := foldl_walkStep_preserves_key evs dbg hsl (walkStep dbg hsl st ev)
      (fun e he => h e (List.mem_cons_of_mem _ he))
    exact ⟨h3.trans h1, h4.trans h2⟩

lemma walkCollect_key_resolution (cfg : ApexConfig) (k : ApexKeyInfo)
    (pre post : List WalkEvent)
    (hev : cfg.walkEvents = pre ++ WalkEvent.direct .key (.apexKey k) :: post)
    (hpre : ∀ e ∈ pre, isApexKeyEvent e = false)
    (hpost : ∀ e ∈ post, isApexKeyEvent e = false) :
    (walkCollect cfg).keyFile = some k.privateKeyFile ∧
    (walkCollect cfg).pubKeyFile =
      (if k.installable = false ∧ cfg.debuggable = true then some k.publicKeyFile
       else none) := by
  unfold walkCollect
  rw [hev, List.foldl_append, List.foldl_cons]
  obtain ⟨hk1, hk2⟩ :=
    foldl_walkStep_preserves_key pre cfg.debuggable
      (!(cfg.properties.ignore_system_library_special_case).getD false) startWalkState hpre
  obtain ⟨hp1, hp2⟩ :=
    foldl_walkStep_preserves_key post cfg.debuggable
      (!(cfg.properties.ignore_system_library_special_case).getD false)
      (walkStep cfg.debuggable _
        (pre.foldl (walkStep cfg.debuggable _) startWalkState)
        (WalkEvent.direct .key (.apexKey k))) hpost
  rw [hp1, hp2]
  constructor
  · simp [walkStep]
  · simp only [walkStep]
    split_ifs with hc
    · rfl
    · rw [hk2]
      rfl

/-- C8: the public key of the key module is embedded in the image (the
extra image-builder flag is passed) exactly when the key module is not
installable and the build is debuggable; in particular no production
(non-debuggable) build ever receives the flag. -/
theorem c8_pubkey_embedding (cfg : ApexConfig) (tp : ApexPackaging) (k : ApexKeyInfo)
    (pre post : List WalkEvent)
    (hev : cfg.walkEvents = pre ++ WalkEvent.direct .key (.apexKey k) :: post)
    (hpre : ∀ e ∈ pre, isApexKeyEvent e = false)
    (hpost : ∀ e ∈ post, isApexKeyEvent e = false)
    (hparse : parsePayloadType cfg.properties.payload_type = some tp)
    (himg : tp.image = true)
    (hfc : cfg.fileContextsExists = true) :
    (∃ flags, BuildRule.apexRule k.privateKeyFile flags ∈
        (generateAndroidBuildActions cfg).rules) ∧
    (∀ kf flags, BuildRule.apexRule kf flags ∈ (generateAndroidBuildActions cfg).rules →
       (OptFlag.pubkey k.publicKeyFile ∈ flags ↔
         (k.installable = false ∧ cfg.debuggable = true))) := by
  obtain ⟨hkf, hpub⟩ := walkCollect_key_resolution cfg k pre post hev hpre hpost
  constructor
  · refine ⟨imageOptFlags (walkCollect cfg).pubKeyFile cfg.overrideManifestPackageName, ?_⟩
    rw [generate_eq_generateWithKey cfg tp k.privateKeyFile hparse hkf,
      generateWithKey_rules]
    refine List.mem_append_left _ (List.mem_append_right _ ?_)
    show _ ∈ (genImageOut cfg tp k.privateKeyFile).rules
    unfold genImageOut
    rw [if_pos himg]
    exact apexRule_mem_buildUnflattened_image cfg _ k.privateKeyFile _ _ hfc
  · intro kf flags hm
    rw [generate_eq_generateWithKey cfg tp k.privateKeyFile hparse hkf,
      generateWithKey_rules] at hm
    have hflags : flags =
        imageOptFlags (walkCollect cfg).pubKeyFile cfg.overrideManifestPackageName := by
      rcases List.mem_append.mp hm with hm | hm
      · rcases List.mem_append.mp hm with hm | hm
        · unfold genZipOut at hm
          by_cases hz : tp.zip = true
          · rw [if_pos hz] at hm
            exact (apexRule_mem_buildUnflattened_elim cfg _ _ _ _ _ kf flags hm).2
          · rw [if_neg hz] at hm
            exact absurd hm (List.not_mem_nil _)
        · unfold genImageOut at hm
          rw [if_pos himg] at hm
          exact (apexRule_mem_buildUnflattened_elim cfg _ _ _ _ _ kf flags hm).2
      · unfold genFlatOut at hm
        rw [if_pos himg] at hm
        unfold buildFlattenedApex at hm
        by_cases hi : cfg.installable = true
        · rw [if_pos hi] at hm
          dsimp only at hm
          simp at hm
        · rw [if_neg hi] at hm
          simp at hm
    rw [hflags, hpub]
    unfold imageOptFlags
    by_cases hc : k.installable = false ∧ cfg.debuggable = true
    · rw [if_pos hc]
      constructor
      · intro _
        exact hc
      · intro _
        exact List.mem_append_left _ (List.mem_cons_self _ _)
    · rw [if_neg hc]
      constructor
      · intro hin
        exfalso
        rcases List.mem_append.mp hin with hin | hin
        · simp at hin
        · cases hov : cfg.overrideManifestPackageName with
          | none =>
            rw [hov] at hin
            simp at hin
          | some nm =>
            rw [hov] at hin
            simp at hin
      · intro hcc
        exact absurd hcc hc

/-- Witness for C8: debuggable build with a non-installable key. -/
theorem c8_pubkey_embedding_witness :
    exCfgDebug.walkEvents = [] ++ WalkEvent.direct .key (.apexKey exKey) :: [] ∧
    (∃ flags, BuildRule.apexRule exKey.privateKeyFile flags ∈
        (generateAndroidBuildActions exCfgDebug).rules) := by
  refine ⟨by decide, ?_⟩
  exact (c8_pubkey_embedding exCfgDebug .imageApex exKey [] []
    (by decide) (by simp) (by simp) (by decide) (by decide) (by decide)).1

/-! ## C9: the appended copied-manifest entry -/

/-- C9: for an installable bundle whose payload includes the filesystem
image, the final packaged-file list is the normalized list with exactly
the copied-manifest entry (`<name>.apex_manifest.json`, install dir `.`,
class etc) appended at the end — after dedup/sort/namespacing and thus
exempt from them — and this holds whether or not the global
configuration selects flattened installation. -/
theorem c9_copied_manifest_appended (cfg : ApexConfig) (tp : ApexPackaging) (kf : String)
    (hparse : parsePayloadType cfg.properties.payload_type = some tp)
    (hkey : (walkCollect cfg).keyFile = some kf)
    (himg : tp.image = true)
    (hinst : cfg.installable = true) :
    ∀ b : Bool,
      (generateAndroidBuildActions { cfg with flattenApex := b }).filesInfo =
        normalizedFilesInfo cfg ++ [flattenedManifestEntry cfg] := by
  intro b
  rw [generate_eq_generateWithKey { cfg with flattenApex := b } tp kf hparse hkey]
  show (genFlatOut { cfg with flattenApex := b } tp).filesInfo = _
  unfold genFlatOut
  rw [if_pos himg]
  unfold buildFlattenedApex
  rw [if_pos (show ApexConfig.installable { cfg with flattenApex := b } = true from hinst)]
  rfl

/-- Witness for C9 at the baseline configuration, unflattened. -/
theorem c9_copied_manifest_appended_witness :
    (generateAndroidBuildActions { exCfg with flattenApex := false }).filesInfo =
      normalizedFilesInfo exCfg ++ [flattenedManifestEntry exCfg] :=
  c9_copied_manifest_appended exCfg .imageApex "keys/priv.pem"
    (by decide) (by decide) (by decide) (by decide) false

/-! ## C10: the `suffix`/`name` panic branches are unreachable -/

lemma buildUnflattened_zip_panicked (cfg : ApexConfig) (fi : List ApexFile)
    (kf0 : String) (pub : Option String) (cert : Option (String × String)) :
    (buildUnflattenedApex cfg fi kf0 pub cert .zipApex).panicked = false := rfl

lemma buildUnflattened_image_panicked (cfg : ApexConfig) (fi : List ApexFile)
    (kf0 : String) (pub : Option String) (cert : Option (String × String)) :
    (buildUnflattenedApex cfg fi kf0 pub cert .imageApex).panicked = false := by
  unfold buildUnflattenedApex
  split_ifs <;> first | rfl | simp_all [ApexPackaging.image]

/-- C10: `suffix()`/`name()` hit their panic branch (modelled as `none`)
exactly on the combined `both` value; for every configuration, build-action
generation invokes the packaging routine only with the single-payload
values `imageApex` or `zipApex`, on which both accessors are defined, so
no generation run reaches a panic. -/
theorem c10_no_packaging_panic (cfg : ApexConfig) :
    ApexPackaging.both.suffix = none ∧ ApexPackaging.both.name = none ∧
    (∀ t ∈ (generateAndroidBuildActions cfg).invoked,
        (t = ApexPackaging.imageApex ∨ t = ApexPackaging.zipApex) ∧
          t.suffix.isSome = true ∧ t.name.isSome = true) ∧
    (generateAndroidBuildActions cfg).panicked = false := by
  refine ⟨rfl, rfl, ?_, ?_⟩
  · intro t ht
    cases hp : parsePayloadType cfg.properties.payload_type with
    | none =>
      unfold generateAndroidBuildActions at ht
      rw [hp] at ht
      exact absurd ht (List.not_mem_nil _)
    | some tp =>
      cases hk : (walkCollect cfg).keyFile with
      | none =>
        unfold generateAndroidBuildActions at ht
        rw [hp, hk] at ht
        exact absurd ht (List.not_mem_nil _)
      | some kf =>
        rw [generate_eq_generateWithKey cfg tp kf hp hk, generateWithKey_invoked] at ht
        rcases List.mem_append.mp ht with ht | ht
        · by_cases hz : tp.zip = true
          · rw [if_pos hz] at ht
            rcases List.mem_cons.mp ht with h | h
            · subst h
              exact ⟨Or.inr rfl, rfl, rfl⟩
            · exact absurd h (List.not_mem_nil _)
          · rw [if_neg hz] at ht
            exact absurd ht (List.not_mem_nil _)
        · by_cases hi : tp.image = true
          · rw [if_pos hi] at ht
            rcases List.mem_cons.mp ht with h | h
            · subst h
              exact ⟨Or.inl rfl, rfl, rfl⟩
            · exact absurd h (List.not_mem_nil _)
          · rw [if_neg hi] at ht
            exact absurd ht (List.not_mem_nil _)
  · cases hp : parsePayloadType cfg.properties.payload_type with
    | none =>
      unfold generateAndroidBuildActions
      rw [hp]
      rfl
    | some tp =>
      cases hk : (walkCollect cfg).keyFile with
      | none =>
        unfold generateAndroidBuildActions
        rw [hp, hk]
        rfl
      | some kf =>
        rw [generate_eq_generateWithKey cfg tp kf hp hk, generateWithKey_panicked]
        unfold genZipOut genImageOut
        by_cases hz : tp.zip = true <;> by_cases hi : tp.image = true <;>
          simp [hz, hi, buildUnflattened_zip_panicked, buildUnflattened_image_panicked,
            emptyUnflattenedOut]

/-- Witness for C10 at the baseline configuration. -/
theorem c10_no_packaging_panic_witness :
    ApexPackaging.imageApex ∈ (generateAndroidBuildActions exCfg).invoked ∧
    (ApexPackaging.imageApex = ApexPackaging.imageApex ∨
      ApexPackaging.imageApex = ApexPackaging.zipApex) ∧
    ApexPackaging.imageApex.suffix.isSome = true ∧
    ApexPackaging.imageApex.name.isSome = true :=
  ⟨by decide, (c10_no_packaging_panic exCfg).2.2.1 ApexPackaging.imageApex (by decide)⟩

end ApexSoong
